import Mathlib

/-!
# Jet type checker: `types/func.go` and package `checker`

A shallow embedding of the Go sources

* `types/func.go`: `NewFunc`, `Func.Equals`, `Func.Underlying`, `Func.String`,
  `Func.CheckArgs`, `IsFunc`, `AsFunc`, `ordinalize`;
* `checker/type_resolver.go`: `Scope.TypeOf`, `Scope.SymbolOf`, `typeCheckWhile`;
* `checker/block.go`: `NewBlock`, `Block.visit`;
* `checker/resolver.go`: `resolveVarDecl`, `resolveFuncDecl`;
* `checker/checker.go`: `Checker.typeOf`, `Checker.valueOf`, `Checker.setType`,
  `Checker.setValue`.

The other files of package `types` (the implementations of the interface `Type`
other than `Func`, and the helper functions on them), package `ast` and the type
`Scope` are not in the source tree.  Their data declarations are modelled from
the specification; the helper functions whose bodies are unknown are the fields
of the structures `Types`, `Env` and `Internals`, which every definition that
calls them takes as a parameter, so that a theorem stated for every `Types`,
`Env` or `Internals` holds whatever these helpers do.  A Go panic is a result of
its own, `panicked` (`none` in `checker/checker.go`).
-/

namespace Jet

/-! ## Package `types`: data model -/

/-- The Go type `PrimitiveKind`.  The generated `String` method compares the
kind against the table length without a test for negative values, so the kind
is an unsigned integer; the nine declared kinds are numbered 0..8 by the
compile-time checks in `primitive_kind_string.go`. -/
abbrev PrimitiveKind := Nat

namespace PrimitiveKind
def UnknownPrimitive : PrimitiveKind := 0
def UntypedBool : PrimitiveKind := 1
def UntypedInt : PrimitiveKind := 2
def UntypedFloat : PrimitiveKind := 3
def UntypedString : PrimitiveKind := 4
def Bool : PrimitiveKind := 5
def I32 : PrimitiveKind := 6
def Any : PrimitiveKind := 7
def AnyTypeDesc : PrimitiveKind := 8
end PrimitiveKind

/-- Modelled from the spec: the constant `KindAny` used by `Func.Equals` is not
declared in the source tree; the specification says that `Func.Equals` compares
against the universal `any` primitive, which is kind 7 of the kind table. -/
def KindAny : PrimitiveKind := PrimitiveKind.Any

/-- Modelled from the spec: the implementations of the Go interface `Type`
(section 3 of the specification).  Only `Func` is declared in the source tree
(`params`, `result` are tuples, `variadic` a flag); a value of this type is a
non-nil `Type`, the nil interface value is `none : Option Ty`. -/
inductive Ty where
  | primitive (kind : PrimitiveKind)
  | tuple (types : List Ty)
  | array (size : Int) (elem : Ty)
  | func (params : List Ty) (result : List Ty) (variadic : Bool)
  | ref (base : Ty)
  | alias (base : Ty) (name : String)
  | typedesc (base : Ty)

/-- The Go struct `Tuple`; `func.go` reads its field `types`. -/
structure Tuple where
  types : List Ty

/-- The Go struct `Func` of `func.go`. -/
structure Func where
  params : Tuple
  result : Tuple
  variadic : Bool

/-- A `*Tuple` seen through the interface `Type`. -/
def Tuple.toTy (t : Tuple) : Ty := .tuple t.types

/-- A `*Func` seen through the interface `Type`. -/
def Func.toTy (t : Func) : Ty := .func t.params.types t.result.types t.variadic

/-- Modelled from the spec: `types.Unit`, the empty tuple. -/
def Unit : Tuple := ⟨[]⟩

/-- Modelled from the spec: `Tuple.Len`, the number of elements. -/
def Tuple.Len (t : Tuple) : Nat := t.types.length

/-- Modelled from the spec: the table `types.Primitives`, indexed by kind. -/
def Primitives (k : PrimitiveKind) : Ty := .primitive k

/-- The functions of package `types` whose bodies are not in the source tree.
Each field is the Go function of the same name; an argument of Go type `Type`
that the callers do not guard against nil is an `Option Ty`.  The fields
`Equals`, `Underlying` and `String` are the interface methods of the receivers
other than `*Func` (the methods of `*Func` are defined below from `func.go`). -/
structure Types where
  /-- Method `Equals` of the receivers other than `*Func`. -/
  Equals : Ty → Option Ty → Bool
  /-- Method `Underlying` of the receivers other than `*Func`. -/
  Underlying : Ty → Option Ty
  /-- Method `String` of the receivers other than `*Func`. -/
  String : Ty → String
  /-- The kind of the primitive that `AsPrimitive` returns, if it returns one. -/
  AsPrimitive : Option Ty → Option PrimitiveKind
  /-- The result of `Base()` on the reference that `AsRef` returns, if it
  returns one. -/
  AsRef : Option Ty → Option (Option Ty)
  /-- The result of `ElemType()` on the array that `AsArray` returns, if it
  returns one. -/
  AsArray : Option Ty → Option (Option Ty)
  /-- The tuple that `AsTuple` returns, if it returns one. -/
  AsTuple : Option Ty → Option Tuple
  IsTypeDesc : Option Ty → Bool
  SkipTypeDesc : Option Ty → Option Ty
  SkipUntyped : Option Ty → Option Ty
  SkipAlias : Option Ty → Option Ty
  WrapInTuple : Option Ty → Tuple
  /-- What `NewTuple` builds when one of its arguments is a nil `Type`. -/
  NewTupleNil : List (Option Ty) → Tuple
  /-- What `NewArray` builds when its element type is a nil `Type`. -/
  NewArrayNil : Int → Ty
  /-- What `NewRef` builds when its base is a nil `Type`. -/
  NewRefNil : Ty

/-! ## `types/func.go` -/

/-- Go: `NewFunc(result, params, variadic)`; a nil tuple is replaced by `Unit`. -/
def NewFunc (result : Option Tuple) (params : Option Tuple) (variadic : Bool) : Func :=
  let result := match result with
    | none => Unit
    | some r => r
  let params := match params with
    | none => Unit
    | some p => p
  { params := params, result := result, variadic := variadic }

/-- Interface method `Underlying`: `func (t *Func) Underlying() Type { return t }`
for a function type, the parameter for every other receiver. -/
def Ty.Underlying (P : Types) (t : Ty) : Option Ty :=
  match t with
  | .func _ _ _ => some t
  | _ => P.Underlying t

/-- Go: `AsFunc`. -/
def AsFunc (P : Types) (t : Option Ty) : Option Func :=
  match t with
  | some t =>
    match Ty.Underlying P t with
    | some (.func params result variadic) => some ⟨⟨params⟩, ⟨result⟩, variadic⟩
    | _ => none
  | none => none

/-- Go: `IsFunc`. -/
def IsFunc (P : Types) (t : Option Ty) : Bool := (AsFunc P t).isSome

/-- Method `Equals` of `*Tuple`, which is one of the receivers not in the source. -/
def Tuple.Equals (P : Types) (t : Tuple) (other : Option Ty) : Bool :=
  P.Equals t.toTy other

/-- Go: `Func.Equals`. -/
def Func.Equals (P : Types) (t : Func) (other : Option Ty) : Bool :=
  match P.AsPrimitive other with
  | some kind => kind == KindAny
  | none =>
    match AsFunc P other with
    | some t2 =>
      t.variadic == t2.variadic && t.result.Equals P (some t2.result.toTy)
        && t.params.Equals P (some t2.params.toTy)
    | none => false

/-- Interface method `Equals` on a non-nil receiver: dynamic dispatch to
`Func.Equals` for a function type, the parameter for every other receiver. -/
def Ty.Equals (P : Types) (t : Ty) (other : Option Ty) : Bool :=
  match t with
  | .func params result variadic => Func.Equals P ⟨⟨params⟩, ⟨result⟩, variadic⟩ other
  | _ => P.Equals t other

/-- Interface method `String` on a non-nil receiver; the case of a function
type is `Func.String` of `func.go`. -/
def Ty.String (P : Types) : Ty → String
  | .func params result _ =>
    "func" ++ P.String (.tuple params) ++
      (if !(Tuple.Equals P ⟨result⟩ (some Unit.toTy)) then
        match result with
        | [r] => " " ++ Ty.String P r
        | _ => " " ++ P.String (.tuple result)
      else "")
  | t => P.String t

/-- Go: `ordinalize`.  The operator `%` of Go truncates towards zero. -/
def ordinalize (num : Int) : String :=
  let s := toString num
  if Int.tmod num 100 = 11 ∨ Int.tmod num 100 = 12 ∨ Int.tmod num 100 = 13 then
    s ++ "th"
  else if Int.tmod num 10 = 1 then s ++ "st"
  else if Int.tmod num 10 = 2 then s ++ "nd"
  else if Int.tmod num 10 = 3 then s ++ "rd"
  else s ++ "th"

/-- The message of the error that `CheckArgs` builds for a mismatch at index `i`. -/
def argMismatchMsg (P : Types) (expected actual : Ty) (i : Nat) : String :=
  "expected '" ++ Ty.String P expected ++ "' for " ++ ordinalize ((i : Int) + 1)
    ++ " argument, got '" ++ Ty.String P actual ++ "' instead"

/-- The loop `for i := 0; i < args.Len(); i++` of `CheckArgs`, entered with the
parameters and arguments from index `i` on (the two tuples have equal length
when the loop is reached). -/
def Func.CheckArgs.loop (P : Types) : List Ty → List Ty → Nat → Int × Option String
  | expected :: params, actual :: args, i =>
    if !(Ty.Equals P actual (some expected)) then
      ((i : Int), some (argMismatchMsg P expected actual i))
    else Func.CheckArgs.loop P params args (i + 1)
  | _, _, _ => (-1, none)

/-- Go: `Func.CheckArgs`; the result is the pair `(idx, err)`, the error being
its message. -/
def Func.CheckArgs (P : Types) (t : Func) (args : Tuple) : Int × Option String :=
  let diff : Int := (t.params.Len : Int) - (args.Len : Int)
  if diff < 0 then
    (((min t.params.Len args.Len : Nat) : Int),
      some ("too many arguments (expected " ++ toString t.params.Len ++ ", got "
        ++ toString args.Len ++ ")"))
  else if diff > 0 then
    (((min t.params.Len args.Len : Nat) : Int),
      some ("not enough arguments (expected " ++ toString t.params.Len ++ ", got "
        ++ toString args.Len ++ ")"))
  else Func.CheckArgs.loop P t.params.types args.types 0

/-- Go: `Func.String`. -/
def Func.String (P : Types) (t : Func) : String := Ty.String P t.toTy

/-! ## Package `ast` -/

/-- Modelled from the spec: the operator kinds of package `ast` that the
checker names; `OperatorOther` stands for every kind it does not name. -/
inductive OperatorKind where
  | OperatorNeg | OperatorNot | OperatorAddr | OperatorMutAddr
  | OperatorAdd | OperatorSub | OperatorMul | OperatorDiv | OperatorMod
  | OperatorBitAnd | OperatorBitOr | OperatorBitXor | OperatorBitShl | OperatorBitShr
  | OperatorEq | OperatorNe | OperatorLt | OperatorLe | OperatorGt | OperatorGe
  | OperatorAssign | OperatorUnwrap | OperatorTry
  | OperatorOther (code : Nat)
deriving DecidableEq

/-- Modelled from the spec: the literal kinds of package `ast`; `OtherLiteral`
stands for every kind the checker does not name. -/
inductive LiteralKind where
  | IntLiteral | FloatLiteral | StringLiteral | OtherLiteral
deriving DecidableEq

/-- Modelled from the spec: the node shapes of package `ast`, with the fields
that the checker reads.  A field that the checker tests against nil is an
`Option`; a field of Go type `*ParenList`, `*BracketList` or `*CurlyList` is the
list of its elements (`Exprs`, `Nodes`); a field of type `*Ident` is its name; a
field of type `*Operator` is its kind; `*Binding` and `*Signature` fields are
flattened into their owner. -/
inductive Node where
  | BadNode
  | Empty
  | Ident (name : String)
  | Operator (kind : OperatorKind)
  | Literal (kind : LiteralKind) (value : String)
  | ArrayType (x : Node) (args : List Node)
  | ParenList (exprs : List Node)
  | BracketList (exprs : List Node)
  | PrefixOp (opr : OperatorKind) (x : Node)
  | InfixOp (opr : OperatorKind) (x : Node) (y : Node)
  | PostfixOp (opr : OperatorKind) (x : Node)
  | Call (x : Node) (args : List Node)
  | Index (x : Node) (args : List Node)
  | BuiltInCall (name : String) (args : Node)
  | CurlyList (nodes : List Node)
  | If (cond : Node) (body : List Node) (els : Option Node)
  | While (cond : Node) (body : Node)
  | Signature (params : List Node) (result : Option Node)
  | Binding (name : String) (type : Option Node)
  | BindingWithValue (name : String) (type : Option Node) (value : Option Node)
  | VarDecl (name : String) (type : Option Node) (value : Option Node)
  | TypeAliasDecl (name : String) (expr : Node)
  | FuncDecl (name : String) (params : List Node) (result : Option Node)
      (body : Option (List Node))
  | ModuleDecl (name : String) (body : Node)

/-! ## Package `checker`: errors, symbols, scopes -/

/-- The error value built by `NewError` and `NewErrorf`: the node it is
reported on and its message. -/
structure Error where
  node : Node
  msg : String

/-- Modelled from the spec: a symbol, reduced to what `TypeOf` and the block
checker observe of it, `Name()` and `Type()` (nil before resolution). -/
structure Symbol where
  name : String
  type : Option Ty

/-- Modelled from the spec: a scope owns a symbol table and refers to its
parent scope (section 3). -/
inductive Scope where
  | mk (symbols : List Symbol) (parent : Option Scope)

/-- Modelled from the spec: `Scope.Lookup` searches the table of this scope
and, on a miss, delegates to the parent (section 4.2). -/
def Scope.Lookup : Scope → String → Option Symbol
  | .mk symbols parent, name =>
    match symbols.find? (fun sym => sym.name == name) with
    | some sym => some sym
    | none =>
      match parent with
      | some p => Scope.Lookup p name
      | none => none

/-- Modelled from the spec: `Scope.Define` inserts the symbol into the table of
this scope; when the name is already in this table it returns the previous
symbol and leaves the table as it is (section 4.2). -/
def Scope.Define : Scope → Symbol → Option Symbol × Scope
  | .mk symbols parent, sym =>
    match symbols.find? (fun s => s.name == sym.name) with
    | some defined => (some defined, .mk symbols parent)
    | none => (none, .mk (symbols ++ [sym]) parent)

/-- Go: `Scope.SymbolOf`. -/
def Scope.SymbolOf (scope : Scope) (name : String) : Option Symbol :=
  match scope.Lookup name with
  | some sym => some sym
  | none => none

/-- The result of a call of a Go function returning `(types.Type, error)`: the
two returned values, or a panic that ends the run. -/
inductive Res where
  | ret (t : Option Ty) (err : Option Error)
  | panicked (msg : String)

/-- The result of the compile-time evaluator `f` of a built-in: the returned
pair `(value, err)`, of the value only whether it is nil and its field `Type`,
or a panic. -/
inductive BuiltInRes where
  | ret (value : Option (Option Ty)) (err : Option Error)
  | panicked (msg : String)

/-- The Go struct `BuiltIn`: name, signature `t` and evaluator `f`. -/
structure BuiltIn where
  name : String
  t : Func
  f : List Node → Scope → BuiltInRes × Scope

/-- Everything the checker calls that is not in the source tree: the helpers
of package `types`, the table `builtIns`, `strconv.ParseInt` (`none` when it
returns an error), the method `String` of an operator kind, and the message of
`errorAlreadyDefined`. -/
structure Env where
  types : Types
  builtIns : List BuiltIn
  ParseInt : String → Nat → Nat → Option Int
  OperatorString : OperatorKind → String
  errorAlreadyDefined : String → Error

/-- A call result together with the scope it leaves behind. -/
abbrev Out := Res × Scope

/-- The Go idiom `t, err := call; if err != nil { return nil, err }` followed
by the rest of the function body. -/
def Out.andThen (o : Out) (k : Option Ty → Scope → Out) : Out :=
  match o with
  | (.ret t none, s) => k t s
  | (.ret _ (some e), s) => (.ret none (some e), s)
  | (.panicked m, s) => (.panicked m, s)

/-- Go: `return t, nil`. -/
def Out.ok (t : Ty) (s : Scope) : Out := (.ret (some t) none, s)

/-- Go: `return nil, NewErrorf(node, msg)`. -/
def Out.fail (node : Node) (msg : String) (s : Scope) : Out :=
  (.ret none (some ⟨node, msg⟩), s)

/-- Go: a `panic` (explicit, a failed type assertion, a nil dereference or an
index out of range). -/
def Out.panic (msg : String) (s : Scope) : Out := (.panicked msg, s)

/-- The verb `%s` of `fmt` applied to a `Type`: its `String()`, and the text
that `fmt` prints for a nil interface value. -/
def fmtType (P : Types) (t : Option Ty) : String :=
  match t with
  | some t => Ty.String P t
  | none => "%!s(<nil>)"

/-- The elements of a list of Go `Type` values when none of them is nil. -/
def nonNil : List (Option Ty) → Option (List Ty)
  | [] => some []
  | some t :: rest =>
    match nonNil rest with
    | some ts => some (t :: ts)
    | none => none
  | none :: _ => none

/-- Modelled from the spec: `types.NewTuple` stores its arguments in order. -/
def NewTuple (P : Types) (elems : List (Option Ty)) : Tuple :=
  match nonNil elems with
  | some ts => ⟨ts⟩
  | none => P.NewTupleNil elems

/-- Modelled from the spec: `types.NewArray` of a size and an element type. -/
def NewArray (P : Types) (size : Int) (elem : Option Ty) : Ty :=
  match elem with
  | some e => .array size e
  | none => P.NewArrayNil size

/-- Modelled from the spec: `types.NewRef` of a base type. -/
def NewRef (P : Types) (base : Option Ty) : Ty :=
  match base with
  | some b => .ref b
  | none => P.NewRefNil

/-- Modelled from the spec: `types.NewTypeDesc` of a base type. -/
def NewTypeDesc (base : Ty) : Ty := .typedesc base

/-- The check of call arguments shared by the cases `Call` and `BuiltInCall` of
`TypeOf`: `CheckArgs` on the argument tuple, a failure reported on the argument
at the fault index when there is one and on the whole list `args` otherwise,
and `rest` on success. -/
def checkCall (P : Types) (fn : Func) (argTypes : Option Ty) (args : Node)
    (exprs : List Node) (s : Scope) (rest : Scope → Out) : Out :=
  match argTypes with
  | some (.tuple types) =>
    match Func.CheckArgs P fn ⟨types⟩ with
    | (_, none) => rest s
    | (idx, some msg) =>
      if idx < (exprs.length : Int) then
        if idx < 0 then Out.panic "index out of range" s
        else
          match exprs[idx.toNat]? with
          | some n => Out.fail n msg s
          | none => Out.panic "index out of range" s
      else Out.fail args msg s
  | _ => Out.panic "interface conversion: types.Type is not *types.Tuple" s

/-- The statement `lastNodeInBody := ...` of the case `If`: the last node of an
else-body that is a brace block or an `if`, the else-body itself otherwise;
`none` when the index `len - 1` is out of range. -/
def lastNodeInBody (els : Node) : Option Node :=
  match els with
  | .CurlyList nodes => nodes.getLast?
  | .If _ body _ => body.getLast?
  | n => some n

/-! ## `checker/type_resolver.go`, `checker/block.go`, `checker/resolver.go` -/

/-- The panic of the Go runtime when a method is called on a nil `Type`. -/
def nilDeref : String := "invalid memory address or nil pointer dereference"

/-- The outcome of the size argument of an array type expression. -/
inductive SizeRes where
  | size (n : Int)
  | fail (node : Node) (msg : String)
  | panicked (msg : String)

/-- The `switch arg := node.Args.Exprs[0].(type)` of the case `ArrayType`. -/
def arraySize (E : Env) (arg : Node) : SizeRes :=
  match arg with
  | .Literal _ value =>
    match E.ParseInt value 0 32 with
    | none => .panicked "strconv.ParseInt"
    | some n =>
      if n < 0 then .fail arg "size must be greater or equals to 0" else .size n
  | .Ident name =>
    if name != "_" then .fail arg "expected integer literal for array size" else .size (-1)
  | _ => .fail arg "expected integer literal for array size"

/-- The Go idiom `p, ok := t.Underlying().(*types.Primitive)` followed by
`p.Kind()`. -/
def primitiveKindOf (P : Types) (t : Ty) : Option PrimitiveKind :=
  match Ty.Underlying P t with
  | some (.primitive kind) => some kind
  | _ => none

/-- Whether a kind was found and is one of the listed `case` values. -/
def kindIn (k : Option PrimitiveKind) (cases : List PrimitiveKind) : Bool :=
  match k with
  | some k => cases.contains k
  | none => false

/-- The first `case` list of the operator switch of the case `InfixOp`. -/
def isArithmetic (opr : OperatorKind) : Bool :=
  match opr with
  | .OperatorAdd | .OperatorSub | .OperatorMul | .OperatorDiv | .OperatorMod
  | .OperatorBitAnd | .OperatorBitOr | .OperatorBitXor | .OperatorBitShl
  | .OperatorBitShr => true
  | _ => false

/-- The second `case` list of the operator switch of the case `InfixOp`. -/
def isComparison (opr : OperatorKind) : Bool :=
  match opr with
  | .OperatorEq | .OperatorNe | .OperatorLt | .OperatorLe | .OperatorGt
  | .OperatorGe => true
  | _ => false

/-- The message "operator ... is not defined for the type ...". -/
def notDefinedMsg (E : Env) (opr : OperatorKind) (t : Ty) : String :=
  "operator '" ++ E.OperatorString opr ++ "' is not defined for the type '"
    ++ Ty.String E.types t ++ "'"

/-- The case `InfixOp` after the two operand types were found equal: `p` is the
kind found by `types.SkipAlias(x_type).Underlying().(*types.Primitive)`. -/
def infixResult (E : Env) (opr : OperatorKind) (x_type : Ty) (p : Option PrimitiveKind)
    (s : Scope) : Out :=
  let returned : Option Ty :=
    match p with
    | some k =>
      if isArithmetic opr then
        if kindIn (some k) [PrimitiveKind.UntypedInt, PrimitiveKind.UntypedFloat,
            PrimitiveKind.I32] then some x_type
        else none
      else if isComparison opr then
        if kindIn (some k) [PrimitiveKind.UntypedBool, PrimitiveKind.UntypedInt,
            PrimitiveKind.UntypedFloat] then some (Primitives PrimitiveKind.UntypedBool)
        else if kindIn (some k) [PrimitiveKind.Bool, PrimitiveKind.I32] then
          some (Primitives PrimitiveKind.Bool)
        else none
      else none
    | none => none
  match returned with
  | some t => Out.ok t s
  | none =>
    if opr = .OperatorAssign then Out.ok Unit.toTy s
    else Out.fail (.Operator opr) (notDefinedMsg E opr x_type) s

/-- The case `Index` after the base type `t` and the index type `i` were
computed; `x` is the base node and `arg` the index node. -/
def indexResult (E : Env) (t i : Option Ty) (x arg : Node) (s : Scope) : Out :=
  match E.types.AsArray t with
  | some elemType =>
    if !(Ty.Equals E.types (Primitives PrimitiveKind.I32) i) then
      Out.fail arg ("expected type 'i32' for index, got '" ++ fmtType E.types i
        ++ "' instead") s
    else (.ret elemType none, s)
  | none =>
    match E.types.AsTuple t with
    | some tuple =>
      match arg with
      | .Literal .IntLiteral value =>
        match E.ParseInt value 0 64 with
        | none => Out.panic "strconv.ParseInt" s
        | some n =>
          if n < 0 ∨ n > (tuple.Len : Int) - 1 then
            Out.fail arg ("index must be in range 0.." ++ toString ((tuple.Len : Int) - 1)) s
          else
            match tuple.types[n.toNat]? with
            | some elem => Out.ok elem s
            | none => Out.panic "index out of range" s
      | _ => Out.fail arg "expected integer literal" s
    | none => Out.fail x "expression is not an array or tuple" s

/-- The loop over `builtIns` of the case `BuiltInCall`: the last entry with the
given name. -/
def findBuiltIn (builtIns : List BuiltIn) (name : String) : Option BuiltIn :=
  builtIns.foldl (fun builtIn b => if b.name == name then some b else builtIn) none

/-- The branch comparison of the case `If`:
`(tBody == nil && tElse != nil) || (tBody != nil && !tBody.Equals(tElse))`. -/
def branchMismatch (P : Types) (tBody tElse : Option Ty) : Bool :=
  match tBody with
  | none => tElse.isSome
  | some b => !(Ty.Equals P b tElse)

/-- The end of the case `If`, from `tCond, err := scope.TypeOf(node.Cond)` on;
`o` is the result of that call. -/
def ifCondition (P : Types) (tBody : Option Ty) (cond : Node) (o : Out) : Out :=
  match o with
  | (.panicked m, s) => (.panicked m, s)
  | (.ret _ (some err), s) => (.ret tBody (some err), s)
  | (.ret tCond none, s) =>
    if !(Ty.Equals P (Primitives PrimitiveKind.Bool) tCond) then
      (.ret tBody (some ⟨cond, "expected type 'bool' for condition, got '"
        ++ fmtType P tCond ++ "' instead"⟩), s)
    else (.ret tBody none, s)

/-- The end of the case `Signature`: `types.NewFunc(result, params.(*types.Tuple))`
wrapped in a type descriptor.  This call passes no variadic flag. -/
def signatureType (result : Tuple) (params : Option Ty) (s : Scope) : Out :=
  match params with
  | some (.tuple types) =>
    Out.ok (NewTypeDesc (NewFunc (some result) (some ⟨types⟩) false).toTy) s
  | _ => Out.panic "interface conversion: types.Type is not *types.Tuple" s

mutual

/-- Go: `Scope.TypeOf`, on a non-nil node (a nil node panics at once).  The
scope is passed in and returned, since a brace block defines symbols in it.  The call `typeCheckWhile(node, scope)` of the
case `While` and the calls `block.visit` of the case `CurlyList` are unfolded
in place (see `typeCheckWhile` and `Block.visit` below). -/
def Scope.TypeOf (E : Env) : Scope → Node → Out
  | s, .BadNode => Out.panic "ill-formed AST" s
  | s, .Empty => Out.ok Unit.toTy s
  | s, .Ident name =>
    match s.SymbolOf name with
    | some sym =>
      match sym.type with
      | none => Out.fail (.Ident name) ("expression `" ++ name ++ "` has no type") s
      | some t => Out.ok t s
    | none => Out.fail (.Ident name) ("identifier `" ++ name ++ "` is undefined") s
  | s, .Operator _ => Out.panic "todo" s
  | s, .Literal kind _ =>
    match kind with
    | .IntLiteral => Out.ok (Primitives PrimitiveKind.UntypedInt) s
    | .FloatLiteral => Out.ok (Primitives PrimitiveKind.UntypedFloat) s
    | .StringLiteral => Out.ok (Primitives PrimitiveKind.UntypedString) s
    | .OtherLiteral => Out.panic "unhandled literal kind" s
  | s, .ArrayType x args =>
    match args with
    | [arg] =>
      match arraySize E arg with
      | .panicked m => Out.panic m s
      | .fail n m => Out.fail n m s
      | .size size =>
        (Scope.TypeOf E s x).andThen fun elemType s =>
          if !(E.types.IsTypeDesc elemType) then
            Out.fail x ("expected type, got '" ++ fmtType E.types elemType ++ "'") s
          else
            Out.ok (NewTypeDesc (NewArray E.types size (E.types.SkipTypeDesc elemType))) s
    | _ => Out.fail (.BracketList args) "expected 1 argument" s
  | s, .ParenList exprs => typeOfParenList E s exprs
  | s, .BracketList exprs =>
    (bracketLoop E none s exprs).andThen fun elemType s =>
      Out.ok (NewArray E.types (exprs.length : Int) elemType) s
  | s, .PrefixOp opr x =>
    (Scope.TypeOf E s x).andThen fun x_type s =>
      match opr with
      | .OperatorNeg =>
        match x_type with
        | none => Out.panic nilDeref s
        | some xt =>
          if kindIn (primitiveKindOf E.types xt) [PrimitiveKind.UntypedInt,
              PrimitiveKind.UntypedFloat, PrimitiveKind.I32] then Out.ok xt s
          else Out.fail (.Operator opr) (notDefinedMsg E opr xt) s
      | .OperatorNot =>
        match x_type with
        | none => Out.panic nilDeref s
        | some xt =>
          if kindIn (primitiveKindOf E.types xt) [PrimitiveKind.UntypedBool,
              PrimitiveKind.Bool] then Out.ok xt s
          else Out.fail x (notDefinedMsg E opr xt) s
      | .OperatorAddr =>
        if E.types.IsTypeDesc x_type then
          Out.ok (NewTypeDesc (NewRef E.types (E.types.SkipTypeDesc x_type))) s
        else Out.ok (NewRef E.types (E.types.SkipUntyped x_type)) s
      | .OperatorMutAddr => Out.panic "not implemented" s
      | _ => Out.panic "unhandled prefix operator" s
  | s, .InfixOp opr x y =>
    (Scope.TypeOf E s x).andThen fun x_type s =>
      (Scope.TypeOf E s y).andThen fun y_type s =>
        match x_type with
        | none => Out.panic nilDeref s
        | some xt =>
          if !(Ty.Equals E.types xt y_type) then
            Out.fail (.InfixOp opr x y) ("type mismatch ('" ++ Ty.String E.types xt
              ++ "' and '" ++ fmtType E.types y_type ++ "')") s
          else
            match E.types.SkipAlias (some xt) with
            | none => Out.panic nilDeref s
            | some u => infixResult E opr xt (primitiveKindOf E.types u) s
  | s, .PostfixOp opr x =>
    (Scope.TypeOf E s x).andThen fun x_type s =>
      match opr with
      | .OperatorUnwrap =>
        match E.types.AsRef x_type with
        | some base => (.ret base none, s)
        | none => Out.ok Unit.toTy s
      | .OperatorTry => Out.panic "not inplemented" s
      | _ => Out.panic "unreachable" s
  | s, .Call x args =>
    (Scope.TypeOf E s x).andThen fun t s =>
      match t with
      | none => Out.panic nilDeref s
      | some t =>
        match Ty.Underlying E.types t with
        | some (.func params result variadic) =>
          (typeOfParenList E s args).andThen fun argTypes s =>
            checkCall E.types ⟨⟨params⟩, ⟨result⟩, variadic⟩ argTypes (.ParenList args) args s
              (fun s => Out.ok (Tuple.toTy ⟨result⟩) s)
        | _ => Out.fail x "expression is not a function" s
  | s, .Index x args =>
    (Scope.TypeOf E s x).andThen fun t s =>
      match args with
      | [arg] => (Scope.TypeOf E s arg).andThen fun i s => indexResult E t i x arg s
      | _ => Out.fail (.BracketList args) "expected 1 argument" s
  | s, .BuiltInCall name args =>
    match findBuiltIn E.builtIns name with
    | none => Out.fail (.Ident name) ("unknown built-in function '@" ++ name ++ "'") s
    | some builtIn =>
      match args with
      | .ParenList exprs =>
        (typeOfParenList E s exprs).andThen fun argTypes s =>
          checkCall E.types builtIn.t argTypes (.ParenList exprs) exprs s fun s =>
            match builtIn.f exprs s with
            | (.panicked m, s) => (.panicked m, s)
            | (.ret _ (some err), s) => (.ret none (some err), s)
            | (.ret (some valueType) none, s) => (.ret valueType none, s)
            | (.ret none none, s) => Out.ok Unit.toTy s
      | _ => Out.fail args "block as built-in function argument is not yet supported" s
  | s, .CurlyList nodes => blockLoop E s (some Unit.toTy) nodes
  | s, .If cond body els =>
    (blockLoop E s (some Unit.toTy) body).andThen fun tBody s =>
      match els with
      | some elseBody =>
        match Scope.TypeOf E s elseBody with
        | (.panicked m, s) => (.panicked m, s)
        | (.ret _ (some err), s) => (.ret tBody (some err), s)
        | (.ret tElse none, s) =>
          match lastNodeInBody elseBody with
          | none => Out.panic "index out of range [-1]" s
          | some last =>
            if branchMismatch E.types tBody tElse then
              Out.fail last ("all branches must have the same type with first branch ("
                ++ fmtType E.types tBody ++ "), but have type '" ++ fmtType E.types tElse
                ++ "'") s
            else ifCondition E.types tBody cond (Scope.TypeOf E s cond)
      | none => ifCondition E.types tBody cond (Scope.TypeOf E s cond)
  | s, .While cond body =>
    match Scope.TypeOf E s body with
    | (.panicked m, s) => (.panicked m, s)
    | (.ret tBody err, s) =>
      if err.isSome && tBody.isSome then
        Out.fail body ("while loop body must have no type, but body has type '"
          ++ fmtType E.types tBody ++ "'") s
      else
        (Scope.TypeOf E s cond).andThen fun tCond s =>
          if !(Ty.Equals E.types (Primitives PrimitiveKind.Bool) tCond) then
            Out.fail cond ("expected type 'bool' for condition, got '"
              ++ fmtType E.types tCond ++ "' instead") s
          else (.ret none none, s)
  | s, .Signature params result =>
    (typeOfParenList E s params).andThen fun paramTypes s =>
      match result with
      | some resultNode =>
        (Scope.TypeOf E s resultNode).andThen fun tResult s =>
          if !(E.types.IsTypeDesc tResult) then
            Out.fail resultNode ("expected type, got '" ++ fmtType E.types tResult
              ++ "' instead") s
          else
            signatureType (E.types.WrapInTuple (E.types.SkipTypeDesc tResult)) paramTypes s
      | none => signatureType Unit paramTypes s
  | s, .Binding _ _ => Out.panic "type checking is not implemented" s
  | s, .BindingWithValue _ _ _ => Out.panic "type checking is not implemented" s
  | s, .VarDecl _ _ _ => Out.panic "type checking is not implemented" s
  | s, .TypeAliasDecl _ _ => Out.panic "type checking is not implemented" s
  | s, .FuncDecl _ _ _ _ => Out.panic "type checking is not implemented" s
  | s, .ModuleDecl _ _ => Out.panic "type checking is not implemented" s

/-- The case `ParenList` of `TypeOf`, which is also `scope.TypeOf(node.Args)`
and `scope.TypeOf(node.Params)` for a field of type `*ParenList`. -/
def typeOfParenList (E : Env) : Scope → List Node → Out
  | s, [] => Out.ok Unit.toTy s
  | s, first :: rest =>
    (Scope.TypeOf E s first).andThen fun t s =>
      if E.types.IsTypeDesc t then parenLoop E true [E.types.SkipTypeDesc t] s rest
      else parenLoop E false [E.types.SkipUntyped t] s rest

/-- The loop `for _, expr := range node.Exprs[1:]` of the case `ParenList` and
the statements after it. -/
def parenLoop (E : Env) (isTypeDescTuple : Bool) : List (Option Ty) → Scope → List Node → Out
  | elemTypes, s, [] =>
    if isTypeDescTuple then Out.ok (NewTypeDesc (NewTuple E.types elemTypes).toTy) s
    else Out.ok (NewTuple E.types elemTypes).toTy s
  | elemTypes, s, expr :: rest =>
    (Scope.TypeOf E s expr).andThen fun t s =>
      if isTypeDescTuple then
        if !(E.types.IsTypeDesc t) then
          Out.fail expr ("expected type, got '" ++ fmtType E.types t ++ "' instead") s
        else parenLoop E isTypeDescTuple (elemTypes ++ [E.types.SkipTypeDesc t]) s rest
      else
        if E.types.IsTypeDesc t then
          Out.fail expr ("expected expression, got type '" ++ fmtType E.types t
            ++ "' instead") s
        else parenLoop E isTypeDescTuple (elemTypes ++ [E.types.SkipUntyped t]) s rest

/-- The loop `for _, expr := range node.Exprs` of the case `BracketList`; it
ends with the value of the variable `elemType`. -/
def bracketLoop (E : Env) : Option Ty → Scope → List Node → Out
  | elemType, s, [] => (.ret elemType none, s)
  | elemType, s, expr :: rest =>
    (Scope.TypeOf E s expr).andThen fun t s =>
      match elemType with
      | none => bracketLoop E (E.types.SkipUntyped t) s rest
      | some et =>
        if !(Ty.Equals E.types et t) then
          Out.fail expr ("expected type '" ++ Ty.String E.types et
            ++ "' for element, got '" ++ fmtType E.types t ++ "' instead") s
        else bracketLoop E (some et) s rest

/-- The loop `for _, node := range node.Nodes` of the case `CurlyList` with the
body of `Block.visit` in place of `ast.WalkTopDown(block.visit, node)`, and the
final `return block.t, nil`.  The second argument is the field `block.t`. -/
def blockLoop (E : Env) : Scope → Option Ty → List Node → Out
  | s, t, [] => (.ret t none, s)
  | s, _, node :: rest =>
    match node with
    | .VarDecl name _ _ =>
      (resolveVarDecl E s node).andThen fun t s =>
        match s.Define ⟨name, t⟩ with
        | (some _, s) => (.ret none (some (E.errorAlreadyDefined name)), s)
        | (none, s) => blockLoop E s (some Unit.toTy) rest
    | .TypeAliasDecl _ _ => Out.panic "not implemented" s
    | .FuncDecl _ _ _ _ => Out.panic "not implemented" s
    | .ModuleDecl _ _ => Out.panic "not implemented" s
    | _ => (Scope.TypeOf E s node).andThen fun t s => blockLoop E s t rest

/-- Go: `resolveVarDecl`, up to the end of `if node.Binding.Type != nil`. -/
def resolveVarDecl (E : Env) : Scope → Node → Out
  | s, .VarDecl _ type value =>
    match type with
    | some typeNode =>
      match Scope.TypeOf E s typeNode with
      | (.panicked m, s) => (.panicked m, s)
      | (.ret tValue (some err), s) => (.ret tValue (some err), s)
      | (.ret none none, s) => Out.panic "assertion failed" s
      | (.ret (some tValue) none, s) =>
        match Ty.Underlying E.types tValue with
        | some (.typedesc base) => resolveVarDeclValue E (some base) s value
        | _ =>
          Out.fail typeNode ("expression is not a type (" ++ Ty.String E.types tValue
            ++ ")") s
    | none => resolveVarDeclValue E none s value
  | s, _ => Out.panic "unreachable" s

/-- Go: `resolveVarDecl`, from `if node.Value != nil` on; `t` is the declared
type found so far. -/
def resolveVarDeclValue (E : Env) (t : Option Ty) : Scope → Option Node → Out
  | s, none => (.ret t none, s)
  | s, some valueNode =>
    (Scope.TypeOf E s valueNode).andThen fun tValue s =>
      match tValue with
      | none => Out.panic nilDeref s
      | some tv =>
        if E.types.IsTypeDesc (Ty.Underlying E.types tv) then
          Out.fail valueNode ("expected value, got type '"
            ++ fmtType E.types (Ty.Underlying E.types tv) ++ "' instead") s
        else
          match t with
          | some t =>
            if !(Ty.Equals E.types t (E.types.SkipUntyped (some tv))) then
              (.ret (some t) (some ⟨valueNode, "type mismatch, expected '"
                ++ Ty.String E.types t ++ "', got '"
                ++ fmtType E.types (E.types.SkipUntyped (some tv)) ++ "'"⟩), s)
            else (.ret (some t) none, s)
          | none => (.ret (E.types.SkipUntyped (some tv)) none, s)

end

/-- Go: `typeCheckWhile`; the returned error is the second component of the
result, the first is always nil. -/
def typeCheckWhile (E : Env) (cond body : Node) (scope : Scope) : Out :=
  match Scope.TypeOf E scope body with
  | (.panicked m, s) => (.panicked m, s)
  | (.ret tBody err, s) =>
    if err.isSome && tBody.isSome then
      Out.fail body ("while loop body must have no type, but body has type '"
        ++ fmtType E.types tBody ++ "'") s
    else
      match Scope.TypeOf E s cond with
      | (.panicked m, s) => (.panicked m, s)
      | (.ret _ (some err), s) => (.ret none (some err), s)
      | (.ret tCond none, s) =>
        if !(Ty.Equals E.types (Primitives PrimitiveKind.Bool) tCond) then
          Out.fail cond ("expected type 'bool' for condition, got '"
            ++ fmtType E.types tCond ++ "' instead") s
        else (.ret none none, s)

/-- The Go struct `Block`: the scope and the running type `t`. -/
structure Block where
  scope : Scope
  t : Option Ty

/-- Go: `NewBlock`; the block works on the scope it is given. -/
def NewBlock (scope : Scope) : Block := ⟨scope, some Unit.toTy⟩

/-- The result of `Block.visit`: the returned error (the returned visitor is
always nil), or a panic. -/
inductive VisitRes where
  | ret (err : Option Error)
  | panicked (msg : String)

/-- Go: `Block.visit`; the result comes with the block as the call leaves it. -/
def Block.visit (E : Env) (expr : Block) (node : Node) : VisitRes × Block :=
  match node with
  | .VarDecl name _ _ =>
    match resolveVarDecl E expr.scope node with
    | (.panicked m, s) => (.panicked m, ⟨s, expr.t⟩)
    | (.ret _ (some err), s) => (.ret (some err), ⟨s, expr.t⟩)
    | (.ret t none, s) =>
      match s.Define ⟨name, t⟩ with
      | (some _, s) => (.ret (some (E.errorAlreadyDefined name)), ⟨s, expr.t⟩)
      | (none, s) => (.ret none, ⟨s, some Unit.toTy⟩)
  | .TypeAliasDecl _ _ => (.panicked "not implemented", expr)
  | .FuncDecl _ _ _ _ => (.panicked "not implemented", expr)
  | .ModuleDecl _ _ => (.panicked "not implemented", expr)
  | _ =>
    match Scope.TypeOf E expr.scope node with
    | (.panicked m, s) => (.panicked m, ⟨s, expr.t⟩)
    | (.ret _ (some err), s) => (.ret (some err), ⟨s, expr.t⟩)
    | (.ret t none, s) => (.ret none, ⟨s, t⟩)

/-- The case `CurlyList` of `TypeOf` as it is written in the source: a loop of
`ast.WalkTopDown(block.visit, node)` over the nodes, then `return block.t, nil`.
Modelled from the spec: `ast.WalkTopDown` calls the visitor on the node and,
the visitor returning no visitor for the children, returns its error. -/
def walkBlock (E : Env) (block : Block) : List Node → Out
  | [] => (.ret block.t none, block.scope)
  | node :: rest =>
    match Block.visit E block node with
    | (.panicked m, b) => (.panicked m, b.scope)
    | (.ret (some err), b) => (.ret none (some err), b.scope)
    | (.ret none, b) => walkBlock E b rest

/-! ## An instance of the missing helpers -/

mutual

/-- Structural equality of types. -/
def Ty.same : Ty → Ty → Bool
  | .primitive a, .primitive b => a == b
  | .tuple a, .tuple b => Ty.sameList a b
  | .array n a, .array m b => n == m && Ty.same a b
  | .func p r v, .func p2 r2 v2 => Ty.sameList p p2 && Ty.sameList r r2 && v == v2
  | .ref a, .ref b => Ty.same a b
  | .alias a n, .alias b m => Ty.same a b && n == m
  | .typedesc a, .typedesc b => Ty.same a b
  | _, _ => false

/-- Structural equality of lists of types. -/
def Ty.sameList : List Ty → List Ty → Bool
  | [], [] => true
  | a :: as, b :: bs => Ty.same a b && Ty.sameList as bs
  | _, _ => false

end

/-- Modelled from the spec: `Underlying` of the receivers other than `*Func`;
an alias is transparent, every other type is its own underlying type. -/
def specUnderlying : Ty → Ty
  | .alias base _ => specUnderlying base
  | t => t

/-- Modelled from the spec: `SkipTypeDesc`, the base of a type descriptor. -/
def specSkipTypeDesc (t : Option Ty) : Option Ty :=
  match t with
  | some (.typedesc base) => some base
  | t => t

/-- Modelled from the spec: `SkipUntyped`, the default concrete kind of an
untyped kind that has one in the kind table (bool for untyped bool, i32 for
untyped int). -/
def specSkipUntyped (t : Option Ty) : Option Ty :=
  match t with
  | some (.primitive 1) => some (.primitive PrimitiveKind.Bool)
  | some (.primitive 2) => some (.primitive PrimitiveKind.I32)
  | t => t

/-- Modelled from the spec: `WrapInTuple`, a tuple as it is and every other
type as a one-element tuple. -/
def specWrapInTuple (t : Option Ty) : Tuple :=
  match t with
  | some (.tuple types) => ⟨types⟩
  | some t => ⟨[t]⟩
  | none => ⟨[]⟩

mutual

/-- A display string for the types other than function types. -/
def specString : Ty → String
  | .primitive 1 => "untyped bool"
  | .primitive 2 => "untyped int"
  | .primitive 3 => "untyped float"
  | .primitive 4 => "untyped string"
  | .primitive 5 => "bool"
  | .primitive 6 => "i32"
  | .primitive 7 => "any"
  | .primitive 8 => "typedesc"
  | .primitive _ => "UnknownPrimitive"
  | .tuple types => "(" ++ specStringList types ++ ")"
  | .array size elem => "[" ++ toString size ++ "]" ++ specString elem
  | .func params result _ => "func(" ++ specStringList params ++ ") ("
      ++ specStringList result ++ ")"
  | .ref base => "&" ++ specString base
  | .alias _ name => name
  | .typedesc base => "typedesc(" ++ specString base ++ ")"

/-- The display strings of a list of types, separated by commas. -/
def specStringList : List Ty → String
  | [] => ""
  | [t] => specString t
  | t :: rest => specString t ++ ", " ++ specStringList rest

end

/-- Modelled from the spec: one instance of the helpers of package `types`
that are not in the source tree, used to run the checker on concrete inputs.
Equality is structural through aliases and false against nil, the downcasts
`As...` look at the underlying type, and a nil `Type` among the arguments of a
constructor is stored as the unknown primitive. -/
def specTypes : Types where
  Equals := fun t other =>
    match other with
    | some o => Ty.same (specUnderlying t) (specUnderlying o)
    | none => false
  Underlying := fun t => some (specUnderlying t)
  String := specString
  AsPrimitive := fun t =>
    match t with
    | some t =>
      match specUnderlying t with
      | .primitive kind => some kind
      | _ => none
    | none => none
  AsRef := fun t =>
    match t with
    | some t =>
      match specUnderlying t with
      | .ref base => some (some base)
      | _ => none
    | none => none
  AsArray := fun t =>
    match t with
    | some t =>
      match specUnderlying t with
      | .array _ elem => some (some elem)
      | _ => none
    | none => none
  AsTuple := fun t =>
    match t with
    | some t =>
      match specUnderlying t with
      | .tuple types => some ⟨types⟩
      | _ => none
    | none => none
  IsTypeDesc := fun t =>
    match t with
    | some (.typedesc _) => true
    | _ => false
  SkipTypeDesc := specSkipTypeDesc
  SkipUntyped := specSkipUntyped
  SkipAlias := fun t => t.map specUnderlying
  WrapInTuple := specWrapInTuple
  NewTupleNil := fun elems => ⟨elems.map (fun t => t.getD (.primitive 0))⟩
  NewArrayNil := fun size => .array size (.primitive 0)
  NewRefNil := .ref (.primitive 0)

/-- A display string for the operator kinds. -/
def specOperatorString : OperatorKind → String
  | .OperatorNeg => "-" | .OperatorNot => "!" | .OperatorAddr => "&"
  | .OperatorMutAddr => "&mut" | .OperatorAdd => "+" | .OperatorSub => "-"
  | .OperatorMul => "*" | .OperatorDiv => "/" | .OperatorMod => "%"
  | .OperatorBitAnd => "&" | .OperatorBitOr => "|" | .OperatorBitXor => "^"
  | .OperatorBitShl => "<<" | .OperatorBitShr => ">>" | .OperatorEq => "=="
  | .OperatorNe => "!=" | .OperatorLt => "<" | .OperatorLe => "<="
  | .OperatorGt => ">" | .OperatorGe => ">=" | .OperatorAssign => "="
  | .OperatorUnwrap => ".*" | .OperatorTry => "?" | .OperatorOther _ => "?"

/-- The value of a list of decimal digits read from the left, `none` when one
of the characters is no digit. -/
def decimalValue : List Char → Nat → Option Nat
  | [], acc => some acc
  | c :: cs, acc =>
    if c.isDigit then decimalValue cs (acc * 10 + (c.toNat - 48)) else none

/-- An instance of `strconv.ParseInt` for decimal literals with an optional
minus sign: the value when it fits in `bitSize` bits, an error otherwise. -/
def specParseInt (value : String) (_base : Nat) (bitSize : Nat) : Option Int :=
  let parsed : Option Int :=
    match value.toList with
    | [] => none
    | '-' :: cs => if cs.isEmpty then none else (decimalValue cs 0).map (fun n => -(n : Int))
    | cs => (decimalValue cs 0).map (fun n => (n : Int))
  match parsed with
  | some n =>
    if -(2 : Int) ^ (bitSize - 1) ≤ n ∧ n < (2 : Int) ^ (bitSize - 1) then some n else none
  | none => none

/-- Modelled from the spec: one instance of everything the checker calls
outside the source tree: the helpers `specTypes`, no built-in, decimal integer
literals, and a redefinition error reported on the identifier. -/
def specEnv : Env where
  types := specTypes
  builtIns := []
  ParseInt := specParseInt
  OperatorString := specOperatorString
  errorAlreadyDefined := fun name => ⟨.Ident name, "identifier is already defined"⟩

/-- A root scope that defines the variable `b` of type `bool` and the variable
`n` of type `i32`. -/
def scopeBN : Scope :=
  .mk [⟨"b", some (Primitives PrimitiveKind.Bool)⟩, ⟨"n", some (Primitives PrimitiveKind.I32)⟩]
    none

/-- The function type `func(i32, i32) i32`. -/
def addI32 : Func :=
  NewFunc (some ⟨[Primitives PrimitiveKind.I32]⟩)
    (some ⟨[Primitives PrimitiveKind.I32, Primitives PrimitiveKind.I32]⟩) false

/-! ## Lists of expressions checked in sequence -/

/-- The types of a list of expressions checked one after the other, each in the
scope left by the one before it, when every one of them checks without error
and without panic; `none` otherwise. -/
def typesOfList (E : Env) : Scope → List Node → Option (List (Option Ty) × Scope)
  | s, [] => some ([], s)
  | s, e :: rest =>
    match Scope.TypeOf E s e with
    | (.ret t none, s1) =>
      match typesOfList E s1 rest with
      | some (ts, s2) => some (t :: ts, s2)
      | none => none
    | _ => none

/-! ## `checker/resolver.go`: `resolveFuncDecl` -/

/-- The scope with its parent link set to `parent`. -/
def Scope.withParent : Scope → Scope → Scope
  | .mk symbols _, parent => .mk symbols (some parent)

/-- Modelled from the spec: the symbol of a function, with the fields that
`resolveFuncDecl` reads and writes: `params` is `node.Signature.Params.Exprs`,
`result` is `node.Signature.Result`, `body` is `node.Body.Nodes` (`none` for a nil
body), `owner` the declaring scope, `scope` the scope of the function itself and
`type` what `setType` stores.  The function scope is a child of the owner scope
(section 3), so its parent link follows the owner. -/
structure FuncSym where
  name : String
  params : List Node
  result : Option Node
  body : Option (List Node)
  owner : Scope
  scope : Scope
  type : Option Ty

/-- The result of `resolveFuncDecl`: the returned error, or a panic. -/
inductive DeclRes where
  | ret (err : Option Error)
  | panicked (msg : String)

/-- A part of `resolveFuncDecl` either goes on with a value or returns. -/
inductive DeclStep (α : Type) where
  | done (a : α) (sym : FuncSym)
  | stop (r : DeclRes) (sym : FuncSym)

/-- The symbol after a call of `sym.owner.TypeOf` that left the owner scope
`owner`. -/
def FuncSym.setOwner (sym : FuncSym) (owner : Scope) : FuncSym :=
  { sym with owner := owner, scope := sym.scope.withParent owner }

/-- The loop `for _, param := range sig.Params.Exprs` of `resolveFuncDecl`;
the second argument is the slice `tParams`. -/
def resolveFuncDecl.params (E : Env) :
    FuncSym → List (Option Ty) → List Node → DeclStep (List (Option Ty))
  | sym, tParams, [] => .done tParams sym
  | sym, tParams, param :: rest =>
    match param with
    | .Binding name type =>
      match type with
      | none => .stop (.panicked "got nil not for expr") sym
      | some typeNode =>
        match Scope.TypeOf E sym.owner typeNode with
        | (.panicked m, owner) => .stop (.panicked m) (sym.setOwner owner)
        | (.ret _ (some err), owner) => .stop (.ret (some err)) (sym.setOwner owner)
        | (.ret t none, owner) =>
          resolveFuncDecl.params E
            { sym.setOwner owner with
              scope := ((sym.setOwner owner).scope.Define
                ⟨name, E.types.SkipTypeDesc t⟩).2 }
            (tParams ++ [E.types.SkipTypeDesc t]) rest
    | .BindingWithValue _ _ _ =>
      .stop (.ret (some ⟨param, "parameters can't have the default value"⟩)) sym
    | _ => .stop (.panicked "ill-formed AST: unexpected node type") sym

/-- The part `// Result.` of `resolveFuncDecl`: the tuple `tResult`. -/
def resolveFuncDecl.result (E : Env) (sym : FuncSym) : DeclStep Tuple :=
  match sym.result with
  | some resultNode =>
    match Scope.TypeOf E sym.owner resultNode with
    | (.panicked m, owner) => .stop (.panicked m) (sym.setOwner owner)
    | (.ret _ (some err), owner) => .stop (.ret (some err)) (sym.setOwner owner)
    | (.ret t none, owner) =>
      .done (NewTuple E.types [E.types.SkipTypeDesc t]) (sym.setOwner owner)
  | none => .done Unit sym

/-- The part `// Body.` of `resolveFuncDecl`. -/
def resolveFuncDecl.body (E : Env) (sym : FuncSym) (tResult : Tuple) : DeclRes × FuncSym :=
  match sym.body with
  | some nodes =>
    match Scope.TypeOf E sym.scope (.CurlyList nodes) with
    | (.panicked m, scope) => (.panicked m, { sym with scope := scope })
    | (.ret _ (some err), scope) => (.ret (some err), { sym with scope := scope })
    | (.ret tBody none, scope) =>
      if !(Tuple.Equals E.types tResult tBody) then
        match nodes.getLast? with
        | some last =>
          (.ret (some ⟨last, "expected expression of type '"
            ++ Ty.String E.types tResult.toTy ++ "' for function result, got '"
            ++ fmtType E.types tBody ++ "' instead"⟩), { sym with scope := scope })
        | none => (.panicked "index out of range [-1]", { sym with scope := scope })
      else (.ret none, { sym with scope := scope })
  | none => (.ret (some ⟨.Ident sym.name, "functions without body is not allowed"⟩), sym)

/-- Go: `resolveFuncDecl`.  The call `types.NewFunc(tResult, ...)` passes no
variadic flag. -/
def resolveFuncDecl (E : Env) (sym : FuncSym) : DeclRes × FuncSym :=
  match resolveFuncDecl.params E sym [] sym.params with
  | .stop r sym => (r, sym)
  | .done tParams sym =>
    match resolveFuncDecl.result E sym with
    | .stop r sym => (r, sym)
    | .done tResult sym =>
      resolveFuncDecl.body E
        { sym with
          type := some (NewFunc (some tResult) (some (NewTuple E.types tParams)) false).toTy }
        tResult

/-! ## `checker/checker.go` -/

/-- The identity of a syntax node: the Go maps of the module are keyed by the
interface value `ast.Node`, compared as a pointer. -/
abbrev NodeId := Nat

/-- Modelled from the spec: a compile-time value. -/
structure ConstValue where
  repr : String
deriving DecidableEq

/-- Modelled from the spec: the Go struct `TypedValue`, the pair of the fields
`Type` and `Value`, each of which may be nil. -/
structure TypedValue where
  type : Option Ty
  value : Option ConstValue

/-- Modelled from the spec: the tables of a module (section 3).  An entry of
`Types` is a non-nil `*TypedValue`, as the two functions of the source that
write this map store. -/
structure Module where
  Types : NodeId → Option TypedValue
  Defs : NodeId → Option Symbol
  Uses : NodeId → Option Symbol
  TypeSyms : List (Option Ty × Symbol) := []

/-- The Go struct `Checker`, without its configuration. -/
structure Checker where
  module : Module
  scope : Scope
  errors : List Error
  isErrorHandled : Bool

/-- The methods `typeOfInternal` and `valueOfInternal` of the checker, which
are not in the source tree: each may change the checker in any way; `none` is
a panic. -/
structure Internals where
  typeOfInternal : Checker → NodeId → Option (Option Ty × Checker)
  valueOfInternal : Checker → NodeId → Option (Option TypedValue × Checker)

/-- The assignment `check.module.Types[expr] = tv`. -/
def Checker.store (check : Checker) (expr : NodeId) (tv : TypedValue) : Checker :=
  { check with
    module := { check.module with
      Types := fun n => if n = expr then some tv else check.module.Types n } }

/-- Go: `Checker.setType`; `none` is a failed assertion. -/
def Checker.setType (check : Checker) (expr : NodeId) (t : Option Ty) : Option Checker :=
  match t with
  | none => none
  | some t =>
    match check.module.Types expr with
    | some prev => some (check.store expr ⟨some t, prev.value⟩)
    | none => some (check.store expr ⟨some t, none⟩)

/-- Go: `Checker.setValue`; `none` is a failed assertion. -/
def Checker.setValue (check : Checker) (expr : NodeId) (value : Option TypedValue) :
    Option Checker :=
  match value with
  | none => none
  | some value =>
    match value.type with
    | none => none
    | some _ => some (check.store expr value)

/-- Go: `Checker.valueOf`; `none` is a panic. -/
def Checker.valueOf (I : Internals) (check : Checker) (expr : NodeId) :
    Option (Option TypedValue × Checker) :=
  match check.module.Types expr with
  | some t => some (some t, check)
  | none =>
    match I.valueOfInternal check expr with
    | none => none
    | some (some value, check) =>
      match check.setValue expr (some value) with
      | some check => some (some value, check)
      | none => none
    | some (none, check) => some (none, check)

/-- Go: `Checker.typeOf`; `none` is a panic. -/
def Checker.typeOf (I : Internals) (check : Checker) (expr : NodeId) :
    Option (Option Ty × Checker) :=
  match Checker.valueOf I check expr with
  | none => none
  | some (some v, check) => some (v.type, check)
  | some (none, check) =>
    match I.typeOfInternal check expr with
    | none => none
    | some (some t, check) =>
      match check.setType expr (some t) with
      | some check => some (some t, check)
      | none => none
    | some (none, check) => some (none, check)

/-! ## `checker/checker.go`: `newDef` and `newUse` -/

/-- Modelled from the spec: the variants of a symbol (section 3), the dynamic
type of a Go value of the interface `Symbol`. -/
inductive SymbolKind where
  | Var | Func | TypeAlias | Struct | Enum
deriving DecidableEq

/-- Go: `Checker.newDef`; `none` is a failed assertion.  A nil `ident` or `sym`
is `none`, `kind` is the dynamic type of `sym`.  Modelled from the spec:
`Defs.Set` stores the symbol under the identifier (and reports whether the
identifier was new, which only decides a warning). -/
def Checker.newDef (P : Types) (check : Checker) (ident : Option NodeId) (kind : SymbolKind)
    (sym : Option Symbol) : Option Checker :=
  match ident, sym with
  | some ident, some sym =>
    let defined : Checker :=
      { check with
        module := { check.module with
          Defs := fun n => if n = ident then some sym else check.module.Defs n } }
    match kind with
    | .Struct | .Enum =>
      some { defined with
        module := { defined.module with
          TypeSyms := (P.SkipTypeDesc sym.type, sym) :: defined.module.TypeSyms } }
    | _ => some defined
  | _, _ => none

/-- Go: `Checker.newUse`; `none` is a failed assertion, among them
`assert.Ok(!isDef)` for an identifier that is a key of `Defs`. -/
def Checker.newUse (check : Checker) (ident : Option NodeId) (sym : Option Symbol) :
    Option Checker :=
  match ident, sym with
  | some ident, some sym =>
    match check.module.Defs ident with
    | some _ => none
    | none =>
      some { check with
        module := { check.module with
          Uses := fun n => if n = ident then some sym else check.module.Uses n } }
  | _, _ => none

/-- A call of `newDef` or of `newUse` with its arguments. -/
inductive CheckerCall where
  | newDef (ident : Option NodeId) (kind : SymbolKind) (sym : Option Symbol)
  | newUse (ident : Option NodeId) (sym : Option Symbol)

/-- A sequence of calls of `newDef` and `newUse`, run one after the other;
`none` when one of them fails an assertion. -/
def Checker.run (P : Types) : Checker → List CheckerCall → Option Checker
  | check, [] => some check
  | check, .newDef ident kind sym :: rest =>
    match check.newDef P ident kind sym with
    | some check => Checker.run P check rest
    | none => none
  | check, .newUse ident sym :: rest =>
    match check.newUse ident sym with
    | some check => Checker.run P check rest
    | none => none

/-- No identifier is a key of both `module.Defs` and `module.Uses`. -/
def Checker.disjoint (check : Checker) : Prop :=
  ∀ n : NodeId, ¬ ((check.module.Defs n).isSome = true ∧ (check.module.Uses n).isSome = true)

/-! ## `types/primitive_kind_string.go` -/

/-- Go: the constant `_PrimitiveKind_name`. -/
def _PrimitiveKind_name : String :=
  "UnknownPrimitiveuntyped booluntyped intuntyped floatuntyped stringbooli32anytypedesc"

/-- Go: the array `_PrimitiveKind_index`. -/
def _PrimitiveKind_index : List Nat := [0, 16, 28, 39, 52, 66, 70, 73, 76, 84]

/-- The Go slice expression `s[lo:hi]` on a string of one-byte characters;
`none` is the panic for bounds that are out of range. -/
def sliceString (s : String) (lo hi : Nat) : Option String :=
  if lo ≤ hi ∧ hi ≤ s.length then some (String.mk ((s.toList.drop lo).take (hi - lo)))
  else none

/-- The Go conversion `int64(i)` of a value of an unsigned integer type of at
most 64 bits. -/
def int64 (i : Nat) : Int :=
  if i % 2 ^ 64 < 2 ^ 63 then ((i % 2 ^ 64 : Nat) : Int)
  else ((i % 2 ^ 64 : Nat) : Int) - 2 ^ 64

/-- Go: `PrimitiveKind.String`; `none` is a panic (an index or a slice out of
range). -/
def PrimitiveKind.String (i : PrimitiveKind) : Option String :=
  if i ≥ _PrimitiveKind_index.length - 1 then
    some ("PrimitiveKind(" ++ toString (int64 i) ++ ")")
  else
    match _PrimitiveKind_index[i]?, _PrimitiveKind_index[i + 1]? with
    | some lo, some hi => sliceString _PrimitiveKind_name lo hi
    | _, _ => none

/-! ## Inputs of the examples -/

/-- The scope `scopeBN` after the declaration `x := 1`, which defines `x` with
the type `i32`. -/
def scopeX : Scope :=
  .mk [⟨"b", some (Primitives PrimitiveKind.Bool)⟩, ⟨"n", some (Primitives PrimitiveKind.I32)⟩,
    ⟨"x", some (Primitives PrimitiveKind.I32)⟩] none

/-- A root scope that defines the type names `i32` and `bool`, the variable `p`
of the tuple type `(i32, bool, i32)`, the variable `r` of the reference type
`&i32`, and the variables `n` of type `i32` and `b` of type `bool`. -/
def scopeT : Scope :=
  .mk [⟨"i32", some (NewTypeDesc (Primitives PrimitiveKind.I32))⟩,
    ⟨"bool", some (NewTypeDesc (Primitives PrimitiveKind.Bool))⟩,
    ⟨"p", some (.tuple [Primitives PrimitiveKind.I32, Primitives PrimitiveKind.Bool,
      Primitives PrimitiveKind.I32])⟩,
    ⟨"r", some (.ref (Primitives PrimitiveKind.I32))⟩,
    ⟨"n", some (Primitives PrimitiveKind.I32)⟩,
    ⟨"b", some (Primitives PrimitiveKind.Bool)⟩] none

/-- The symbol of the function `f := () i32 {}`, declared in the scope `scopeT`:
no parameter, the result annotation `i32` and an empty body. -/
def funcEmptyBody : FuncSym :=
  { name := "f", params := [], result := some (.Ident "i32"), body := some [],
    owner := scopeT, scope := .mk [] (some scopeT), type := none }

/-- The symbol of the function `f := (a: i32) { a = a }`, declared in the scope
`scopeT`: no result annotation and a body of unit type. -/
def funcAssign : FuncSym :=
  { name := "f", params := [.Binding "a" (some (.Ident "i32"))], result := none,
    body := some [.InfixOp .OperatorAssign (.Ident "a") (.Ident "a")],
    owner := scopeT, scope := .mk [] (some scopeT), type := none }

/-- The symbol of the function `f := () i32 { b }`, declared in the scope
`scopeT`, where `b` has the type `bool`. -/
def funcBool : FuncSym :=
  { name := "f", params := [], result := some (.Ident "i32"), body := some [.Ident "b"],
    owner := scopeT, scope := .mk [] (some scopeT), type := none }

/-- A checker whose tables are empty. -/
def checkerEmpty : Checker :=
  { module := { Types := fun _ => none, Defs := fun _ => none, Uses := fun _ => none },
    scope := scopeT, errors := [], isErrorHandled := false }

/-- A checker in which the node 0 has the type `i32` and the value `5`. -/
def checkerV : Checker :=
  checkerEmpty.store 0 ⟨some (Primitives PrimitiveKind.I32), some ⟨"5"⟩⟩

/-- Internal methods that leave a trace in the checker each time they are
called: `valueOfInternal` finds no value and records an error,
`typeOfInternal` finds the type `bool` and sets the flag `isErrorHandled`. -/
def tracingInternals : Internals :=
  { typeOfInternal := fun check _ =>
      some (some (Primitives PrimitiveKind.Bool), { check with isErrorHandled := true })
    valueOfInternal := fun check _ =>
      some (none, { check with errors := ⟨.Empty, "valueOfInternal"⟩ :: check.errors }) }

/-- The function type `func(i32, i32) i32` with the variadic flag set. -/
def addI32Variadic : Func :=
  NewFunc (some ⟨[Primitives PrimitiveKind.I32]⟩)
    (some ⟨[Primitives PrimitiveKind.I32, Primitives PrimitiveKind.I32]⟩) true

/-- The symbol of a variable `n` of type `i32`. -/
def symN : Symbol := ⟨"n", some (Primitives PrimitiveKind.I32)⟩

/-! ## Lemmas on `Func.CheckArgs` -/

/-- The loop of `CheckArgs` over two lists of equal length either finds every
argument equal to its parameter and ends with `(-1, nil)`, or stops at the
first position whose argument does not equal its parameter. -/
theorem CheckArgs_loop_cases (P : Types) :
    ∀ (params args : List Ty) (i : Nat), params.length = args.length →
      ((∀ (j : Nat) (a p : Ty), args[j]? = some a → params[j]? = some p → Ty.Equals P a (some p) = true)
          ∧ Func.CheckArgs.loop P params args i = (-1, none))
      ∨ (∃ (k : Nat) (a p : Ty), args[k]? = some a ∧ params[k]? = some p
          ∧ Ty.Equals P a (some p) = false
          ∧ (∀ (j : Nat) (a2 p2 : Ty), j < k → args[j]? = some a2 → params[j]? = some p2 →
              Ty.Equals P a2 (some p2) = true)
          ∧ Func.CheckArgs.loop P params args i
              = (((i + k : Nat) : Int), some (argMismatchMsg P p a (i + k)))) := by
  intro params
  induction params with
  | nil =>
    intro args i h
    cases args with
    | nil =>
      left
      refine ⟨?_, rfl⟩
      intro j a p ha
      simp at ha
    | cons a as => simp at h
  | cons p ps ih =>
    intro args i h
    cases args with
    | nil => simp at h
    | cons a as =>
      have hlen : ps.length = as.length := by simpa using h
      by_cases hEq : Ty.Equals P a (some p) = true
      · rcases ih as (i + 1) hlen with ⟨hall, hloop⟩ | ⟨k, a1, p1, ha, hp, hne, hlt, hloop⟩
        · left
          refine ⟨?_, ?_⟩
          · intro j a2 p2 ha2 hp2
            cases j with
            | zero =>
              simp at ha2 hp2
              subst ha2 hp2
              exact hEq
            | succ j =>
              simp at ha2 hp2
              exact hall j a2 p2 ha2 hp2
          · simp [Func.CheckArgs.loop, hEq, hloop]
        · right
          refine ⟨k + 1, a1, p1, by simpa using ha, by simpa using hp, hne, ?_, ?_⟩
          · intro j a2 p2 hj ha2 hp2
            cases j with
            | zero =>
              simp at ha2 hp2
              subst ha2 hp2
              exact hEq
            | succ j =>
              simp at ha2 hp2
              exact hlt j a2 p2 (by omega) ha2 hp2
          · simp only [Func.CheckArgs.loop, hEq, Bool.not_true, Bool.false_eq_true, if_false]
            rw [hloop]
            have : i + 1 + k = i + (k + 1) := by omega
            rw [this]
      · right
        have hf : Ty.Equals P a (some p) = false := by simpa using hEq
        refine ⟨0, a, p, by simp, by simp, hf, ?_, ?_⟩
        · intro j a2 p2 hj
          omega
        · simp [Func.CheckArgs.loop, hf]

/-- When the two tuples have the same length `CheckArgs` is its loop. -/
theorem CheckArgs_eq_loop (P : Types) (f : Func) (args : Tuple)
    (h : f.params.Len = args.Len) :
    Func.CheckArgs P f args = Func.CheckArgs.loop P f.params.types args.types 0 := by
  simp [Func.CheckArgs, h]

/-- When the two tuples differ in length `CheckArgs` fails at the smaller
length, with a message that depends on the two lengths only. -/
theorem CheckArgs_arity (P : Types) (f : Func) (args : Tuple)
    (h : f.params.Len ≠ args.Len) :
    Func.CheckArgs P f args =
      (((min f.params.Len args.Len : Nat) : Int),
        some ((if f.params.Len < args.Len then "too many arguments (expected "
            else "not enough arguments (expected ")
          ++ toString f.params.Len ++ ", got " ++ toString args.Len ++ ")")) := by
  unfold Func.CheckArgs
  by_cases hlt : f.params.Len < args.Len
  · have h1 : ((f.params.Len : Int) - (args.Len : Int)) < 0 := by omega
    simp only [h1, if_true, hlt]
  · have h1 : ¬ ((f.params.Len : Int) - (args.Len : Int)) < 0 := by omega
    have h2 : ((f.params.Len : Int) - (args.Len : Int)) > 0 := by omega
    simp only [h1, h2, if_true, if_false, hlt]

/-! ## Claims on `Func.CheckArgs` and `Func.Equals` -/

/-- C1: `Func.CheckArgs` returns the index -1 together with a nil error if
and only if the parameter tuple and the argument tuple have the same length and
at every position the argument `Equals` the parameter; in every other case it
returns a non-nil error. -/
theorem C1_CheckArgs_success_iff (P : Types) (f : Func) (args : Tuple) :
    (Func.CheckArgs P f args = (-1, none) ↔
      (f.params.Len = args.Len ∧
        ∀ (i : Nat) (a p : Ty), args.types[i]? = some a → f.params.types[i]? = some p →
          Ty.Equals P a (some p) = true))
    ∧ (Func.CheckArgs P f args ≠ (-1, none) →
        ∃ msg, (Func.CheckArgs P f args).2 = some msg) := by
  by_cases hlen : f.params.Len = args.Len
  · rw [CheckArgs_eq_loop P f args hlen]
    rcases CheckArgs_loop_cases P f.params.types args.types 0 hlen with
      ⟨hall, hloop⟩ | ⟨k, a, p, ha, hp, hne, _, hloop⟩
    · refine ⟨⟨fun _ => ⟨hlen, hall⟩, fun _ => hloop⟩, fun h => absurd hloop h⟩
    · rw [hloop]
      refine ⟨⟨?_, ?_⟩, fun _ => ⟨_, rfl⟩⟩
      · intro h
        simp at h
      · rintro ⟨_, hall⟩
        have := hall k a p ha hp
        simp [hne] at this
  · rw [CheckArgs_arity P f args hlen]
    refine ⟨⟨?_, ?_⟩, fun _ => ⟨_, rfl⟩⟩
    · intro h
      simp at h
    · rintro ⟨h, _⟩
      exact absurd h hlen

/-- C2: whenever `Func.CheckArgs` returns a non-nil error, the returned index
is at least 0 and smaller than the larger of the two tuple lengths. -/
theorem C2_CheckArgs_fault_index_range (P : Types) (f : Func) (args : Tuple)
    (herr : (Func.CheckArgs P f args).2 ≠ none) :
    0 ≤ (Func.CheckArgs P f args).1 ∧
      (Func.CheckArgs P f args).1 < ((max f.params.Len args.Len : Nat) : Int) := by
  by_cases hlen : f.params.Len = args.Len
  · rw [CheckArgs_eq_loop P f args hlen] at herr ⊢
    rcases CheckArgs_loop_cases P f.params.types args.types 0 hlen with
      ⟨_, hloop⟩ | ⟨k, a, p, ha, _, _, _, hloop⟩
    · rw [hloop] at herr
      exact absurd rfl herr
    · rw [hloop]
      have hk : k < args.types.length := by
        by_contra hge
        have : args.types[k]? = none := List.getElem?_eq_none (by omega)
        rw [this] at ha
        cases ha
      have hk2 : k < args.Len := hk
      simp only [Nat.zero_add]
      omega
  · rw [CheckArgs_arity P f args hlen]
    simp only
    omega

/-- Witness for C2: `func(i32, i32) i32` called with one argument. -/
theorem C2_CheckArgs_fault_index_range_witness :
    (Func.CheckArgs specTypes addI32 ⟨[Primitives PrimitiveKind.I32]⟩).2 ≠ none ∧
    (0 ≤ (Func.CheckArgs specTypes addI32 ⟨[Primitives PrimitiveKind.I32]⟩).1 ∧
      (Func.CheckArgs specTypes addI32 ⟨[Primitives PrimitiveKind.I32]⟩).1
        < ((max addI32.params.Len (Tuple.Len ⟨[Primitives PrimitiveKind.I32]⟩) : Nat) : Int)) :=
  ⟨by decide, C2_CheckArgs_fault_index_range specTypes addI32 _ (by decide)⟩

/-- C3: when the number of parameters differs from the number of arguments,
`Func.CheckArgs` fails with the smaller of the two numbers as fault index, with
the message "too many arguments" when there are more arguments than parameters
and "not enough arguments" when there are fewer; the result is the same for
every other choice of element types and of the helpers of package `types`, so
no element type is inspected. -/
theorem C3_CheckArgs_arity_mismatch (P : Types) (f : Func) (args : Tuple)
    (hlen : f.params.Len ≠ args.Len) :
    Func.CheckArgs P f args =
        (((min f.params.Len args.Len : Nat) : Int),
          some (if f.params.Len < args.Len then
              "too many arguments (expected " ++ toString f.params.Len ++ ", got "
                ++ toString args.Len ++ ")"
            else
              "not enough arguments (expected " ++ toString f.params.Len ++ ", got "
                ++ toString args.Len ++ ")"))
    ∧ (∀ (P2 : Types) (f2 : Func) (args2 : Tuple),
        f2.params.Len = f.params.Len → args2.Len = args.Len →
          Func.CheckArgs P2 f2 args2 = Func.CheckArgs P f args) := by
  have key : ∀ (Q : Types) (g : Func) (as : Tuple), g.params.Len ≠ as.Len →
      Func.CheckArgs Q g as =
        (((min g.params.Len as.Len : Nat) : Int),
          some (if g.params.Len < as.Len then
              "too many arguments (expected " ++ toString g.params.Len ++ ", got "
                ++ toString as.Len ++ ")"
            else
              "not enough arguments (expected " ++ toString g.params.Len ++ ", got "
                ++ toString as.Len ++ ")")) := by
    intro Q g as h
    rw [CheckArgs_arity Q g as h]
    by_cases hlt : g.params.Len < as.Len <;> simp [hlt]
  refine ⟨key P f args hlen, ?_⟩
  intro P2 f2 args2 h1 h2
  rw [key P f args hlen, key P2 f2 args2 (by rw [h1, h2]; exact hlen), h1, h2]

/-- Witness for C3: two parameters and one argument give the index 1 and "not
enough arguments". -/
theorem C3_CheckArgs_arity_mismatch_witness :
    addI32.params.Len ≠ Tuple.Len ⟨[Primitives PrimitiveKind.I32]⟩
    ∧ Func.CheckArgs specTypes addI32 ⟨[Primitives PrimitiveKind.I32]⟩
      = (1, some "not enough arguments (expected 2, got 1)")
    ∧ Func.CheckArgs specTypes (NewFunc none none false)
        ⟨[Primitives PrimitiveKind.I32, Primitives PrimitiveKind.Bool,
          Primitives PrimitiveKind.Any]⟩
      = (0, some "too many arguments (expected 0, got 3)") :=
  ⟨by decide,
    (C3_CheckArgs_arity_mismatch specTypes addI32 ⟨[Primitives PrimitiveKind.I32]⟩
      (by decide)).1.trans (by decide),
    by decide⟩

/-- C4: when the two tuples have the same length and some argument does not
`Equals` its parameter, `Func.CheckArgs` fails with the smallest such position
`i` as fault index, and the message names the parameter type, the ordinal of
`i + 1` and the argument type; the ordinals are "1st", "2nd", "3rd", "4th",
"11th", "12th", "13th", "21st". -/
theorem C4_CheckArgs_first_mismatch (P : Types) (f : Func) (args : Tuple)
    (hlen : f.params.Len = args.Len) (k : Nat) (ak pk : Ty)
    (hak : args.types[k]? = some ak) (hpk : f.params.types[k]? = some pk)
    (hne : Ty.Equals P ak (some pk) = false) :
    (∃ (i : Nat) (a p : Ty), i ≤ k ∧ args.types[i]? = some a ∧ f.params.types[i]? = some p
      ∧ Ty.Equals P a (some p) = false
      ∧ (∀ (j : Nat) (a2 p2 : Ty), j < i → args.types[j]? = some a2 →
          f.params.types[j]? = some p2 → Ty.Equals P a2 (some p2) = true)
      ∧ Func.CheckArgs P f args =
          ((i : Int), some ("expected '" ++ Ty.String P p ++ "' for "
            ++ ordinalize ((i : Int) + 1) ++ " argument, got '" ++ Ty.String P a
            ++ "' instead")))
    ∧ ordinalize 1 = "1st" ∧ ordinalize 2 = "2nd" ∧ ordinalize 3 = "3rd"
    ∧ ordinalize 4 = "4th" ∧ ordinalize 11 = "11th" ∧ ordinalize 12 = "12th"
    ∧ ordinalize 13 = "13th" ∧ ordinalize 21 = "21st" := by
  refine ⟨?_, by decide, by decide, by decide, by decide, by decide, by decide, by decide,
    by decide⟩
  rw [CheckArgs_eq_loop P f args hlen]
  rcases CheckArgs_loop_cases P f.params.types args.types 0 hlen with
    ⟨hall, _⟩ | ⟨i, a, p, ha, hp, hf, hlt, hloop⟩
  · have := hall k ak pk hak hpk
    rw [hne] at this
    cases this
  · refine ⟨i, a, p, ?_, ha, hp, hf, hlt, ?_⟩
    · by_contra hgt
      have := hlt k ak pk (by omega) hak hpk
      rw [hne] at this
      cases this
    · rw [hloop]
      simp [argMismatchMsg]

/-- Witness for C4: `func(i32, i32) i32` called with `(i32, bool)` fails at
index 1, the 2nd argument. -/
theorem C4_CheckArgs_first_mismatch_witness :
    ∃ (i : Nat) (a p : Ty), i ≤ 1
      ∧ (Tuple.mk [Primitives PrimitiveKind.I32, Primitives PrimitiveKind.Bool]).types[i]?
          = some a
      ∧ addI32.params.types[i]? = some p
      ∧ Ty.Equals specTypes a (some p) = false
      ∧ Func.CheckArgs specTypes addI32
          ⟨[Primitives PrimitiveKind.I32, Primitives PrimitiveKind.Bool]⟩ =
          ((i : Int), some ("expected '" ++ Ty.String specTypes p ++ "' for "
            ++ ordinalize ((i : Int) + 1) ++ " argument, got '" ++ Ty.String specTypes a
            ++ "' instead")) :=
  match (C4_CheckArgs_first_mismatch specTypes addI32
      ⟨[Primitives PrimitiveKind.I32, Primitives PrimitiveKind.Bool]⟩ (by decide) 1
      (Primitives PrimitiveKind.Bool) (Primitives PrimitiveKind.I32) rfl rfl
      (by decide)).1 with
  | ⟨i, a, p, hi, ha, hp, hf, _, hr⟩ => ⟨i, a, p, hi, ha, hp, hf, hr⟩

/-- C5: for every function type `f`, `f.Equals(other)` is true when `other`
is the `any` primitive and false when `other` is a primitive of each other kind
(unknown, untyped bool, untyped int, untyped float, untyped string, bool, i32,
typedesc), whatever the fields of `f` are; the same holds when `Equals` is
called through the interface `Type`. -/
theorem C5_Func_Equals_primitive (P : Types) (f : Func) (other : Option Ty)
    (kind : PrimitiveKind) (hprim : P.AsPrimitive other = some kind) :
    (kind = PrimitiveKind.Any → Func.Equals P f other = true)
    ∧ (kind ≠ PrimitiveKind.Any → Func.Equals P f other = false)
    ∧ (kind ∈ [PrimitiveKind.UnknownPrimitive, PrimitiveKind.UntypedBool,
          PrimitiveKind.UntypedInt, PrimitiveKind.UntypedFloat, PrimitiveKind.UntypedString,
          PrimitiveKind.Bool, PrimitiveKind.I32, PrimitiveKind.AnyTypeDesc] →
        Func.Equals P f other = false)
    ∧ Ty.Equals P f.toTy other = Func.Equals P f other := by
  have hval : Func.Equals P f other = (kind == KindAny) := by
    simp [Func.Equals, hprim]
  refine ⟨?_, ?_, ?_, rfl⟩
  · intro h
    rw [hval, h]
    rfl
  · intro h
    rw [hval]
    simpa [KindAny] using h
  · intro h
    rw [hval]
    simp only [List.mem_cons, List.mem_singleton, List.not_mem_nil, or_false] at h
    rcases h with h | h | h | h | h | h | h | h <;> rw [h] <;> rfl

/-- Witness for C5: `func(i32, i32) i32` against the `any` primitive. -/
theorem C5_Func_Equals_primitive_witness :
    specTypes.AsPrimitive (some (Primitives PrimitiveKind.Any)) = some PrimitiveKind.Any
    ∧ Func.Equals specTypes addI32 (some (Primitives PrimitiveKind.Any)) = true
    ∧ Func.Equals specTypes addI32 (some (Primitives PrimitiveKind.I32)) = false :=
  ⟨rfl,
    (C5_Func_Equals_primitive specTypes addI32 (some (Primitives PrimitiveKind.Any))
      PrimitiveKind.Any rfl).1 rfl,
    by decide⟩

/-- C6: for function types `f` and `g` (a function type is not a primitive),
`f.Equals(g)` holds if and only if the variadic flags are equal,
`f.result.Equals(g.result)` and `f.params.Equals(g.params)`; hence, when tuple
equality is reflexive, a function type built by `NewFunc` equals a function
type built from the same fields and `f.Equals(f)` holds; and `f.Equals(t)` is
false for every `t` that is neither a primitive nor a function type. -/
theorem C6_Func_Equals_func (P : Types)
    (hprim : ∀ g : Func, P.AsPrimitive (some g.toTy) = none) (f : Func) :
    (∀ g : Func, Func.Equals P f (some g.toTy) = true ↔
      (f.variadic = g.variadic ∧ f.result.Equals P (some g.result.toTy) = true
        ∧ f.params.Equals P (some g.params.toTy) = true))
    ∧ ((∀ t : Tuple, t.Equals P (some t.toTy) = true) →
        ∀ (result params : Option Tuple) (variadic : Bool),
          Func.Equals P (NewFunc result params variadic)
            (some (NewFunc result params variadic).toTy) = true)
    ∧ ((∀ t : Tuple, t.Equals P (some t.toTy) = true) →
        Func.Equals P f (some f.toTy) = true)
    ∧ (∀ t : Option Ty, P.AsPrimitive t = none → AsFunc P t = none →
        Func.Equals P f t = false) := by
  have hiff : ∀ f g : Func, Func.Equals P f (some g.toTy) = true ↔
      (f.variadic = g.variadic ∧ f.result.Equals P (some g.result.toTy) = true
        ∧ f.params.Equals P (some g.params.toTy) = true) := by
    intro f g
    have hAs : AsFunc P (some g.toTy) = some g := by
      simp [AsFunc, Func.toTy, Ty.Underlying]
    simp [Func.Equals, hprim g, hAs, and_assoc]
  refine ⟨hiff f, ?_, ?_, ?_⟩
  · intro hrefl result params variadic
    exact (hiff _ _).2 ⟨rfl, hrefl _, hrefl _⟩
  · intro hrefl
    exact (hiff _ _).2 ⟨rfl, hrefl _, hrefl _⟩
  · intro t h1 h2
    simp [Func.Equals, h1, h2]

/-- Witness for C6: with the helpers `specTypes`, where no function type is a
primitive, `func(i32, i32) i32` equals itself. -/
theorem C6_Func_Equals_func_witness :
    (∀ g : Func, specTypes.AsPrimitive (some g.toTy) = none)
    ∧ (Func.Equals specTypes addI32 (some addI32.toTy) = true ↔
      (addI32.variadic = addI32.variadic
        ∧ addI32.result.Equals specTypes (some addI32.result.toTy) = true
        ∧ addI32.params.Equals specTypes (some addI32.params.toTy) = true))
    ∧ Func.Equals specTypes addI32 (some addI32.toTy) = true :=
  ⟨fun _ => rfl, (C6_Func_Equals_func specTypes (fun _ => rfl) addI32).1 addI32, by decide⟩

/-! ## Lemmas on `TypeOf` -/

/-- The case `While` of `TypeOf`, unfolded. -/
theorem TypeOf_While_unfold (E : Env) (s : Scope) (cond body : Node) :
    Scope.TypeOf E s (.While cond body) =
      (match Scope.TypeOf E s body with
      | (.panicked m, s) => (.panicked m, s)
      | (.ret tBody err, s) =>
        if err.isSome && tBody.isSome then
          Out.fail body ("while loop body must have no type, but body has type '"
            ++ fmtType E.types tBody ++ "'") s
        else
          (Scope.TypeOf E s cond).andThen fun tCond s =>
            if !(Ty.Equals E.types (Primitives PrimitiveKind.Bool) tCond) then
              Out.fail cond ("expected type 'bool' for condition, got '"
                ++ fmtType E.types tCond ++ "' instead") s
            else (.ret none none, s)) := rfl

/-- The case `While` of `TypeOf` is `return nil, typeCheckWhile(node, scope)`. -/
theorem TypeOf_While (E : Env) (s : Scope) (cond body : Node) :
    Scope.TypeOf E s (.While cond body) = typeCheckWhile E cond body s := by
  rw [TypeOf_While_unfold, typeCheckWhile]
  generalize Scope.TypeOf E s body = ob
  rcases ob with ⟨_ | _, s1⟩
  · simp only
    split
    · rfl
    · generalize Scope.TypeOf E s1 cond = oc
      rcases oc with ⟨⟨t, _ | e⟩ | _, s2⟩ <;> simp only [Out.andThen]
  · rfl

/-- A check of a `while` node that ends without a panic returns a nil type,
whether it returns an error or not. -/
theorem TypeOf_While_type_nil (E : Env) (s s2 : Scope) (cond body : Node) (t : Option Ty)
    (err : Option Error) (h : Scope.TypeOf E s (.While cond body) = (.ret t err, s2)) :
    t = none := by
  rw [TypeOf_While_unfold] at h
  generalize Scope.TypeOf E s body = ob at h
  rcases ob with ⟨⟨tb, eb⟩ | _, s1⟩
  · simp only at h
    split at h
    · simp only [Out.fail, Prod.mk.injEq, Res.ret.injEq] at h
      exact h.1.1.symm
    · generalize Scope.TypeOf E s1 cond = oc at h
      rcases oc with ⟨⟨tc, _ | e⟩ | _, s3⟩ <;> simp only [Out.andThen] at h
      · split at h <;> simp only [Out.fail, Prod.mk.injEq, Res.ret.injEq] at h <;>
          exact h.1.1.symm
      · simp only [Prod.mk.injEq, Res.ret.injEq] at h
        exact h.1.1.symm
      · simp at h
  · simp at h

/-- When the body of a `while` node checks without an error, whatever type it
has, the result of the `while` node is decided by the condition alone. -/
theorem typeCheckWhile_body_ok (E : Env) (s s1 : Scope) (cond body : Node)
    (tBody : Option Ty) (hb : Scope.TypeOf E s body = (.ret tBody none, s1)) :
    typeCheckWhile E cond body s =
      (Scope.TypeOf E s1 cond).andThen fun tCond s =>
        if !(Ty.Equals E.types (Primitives PrimitiveKind.Bool) tCond) then
          Out.fail cond ("expected type 'bool' for condition, got '"
            ++ fmtType E.types tCond ++ "' instead") s
        else (.ret none none, s) := by
  rw [← TypeOf_While, TypeOf_While_unfold, hb]
  simp

/-- The case `PostfixOp` of `TypeOf`, unfolded. -/
theorem TypeOf_PostfixOp_unfold (E : Env) (s : Scope) (opr : OperatorKind) (x : Node) :
    Scope.TypeOf E s (.PostfixOp opr x) =
      (Scope.TypeOf E s x).andThen fun x_type s =>
        match opr with
        | .OperatorUnwrap =>
          match E.types.AsRef x_type with
          | some base => (.ret base none, s)
          | none => Out.ok Unit.toTy s
        | .OperatorTry => Out.panic "not inplemented" s
        | _ => Out.panic "unreachable" s := rfl

/-- Postfix unwrap of an operand whose type is a reference type yields the
base of the reference. -/
theorem TypeOf_unwrap_ref (E : Env) (s s1 : Scope) (x : Node) (t base : Option Ty)
    (hx : Scope.TypeOf E s x = (.ret t none, s1)) (href : E.types.AsRef t = some base) :
    Scope.TypeOf E s (.PostfixOp .OperatorUnwrap x) = (.ret base none, s1) := by
  rw [TypeOf_PostfixOp_unfold, hx]
  simp [Out.andThen, href]

/-- Postfix unwrap of an operand whose type is not a reference type leaves the
operator switch and ends in the final `return types.Unit, nil`. -/
theorem TypeOf_unwrap_not_ref (E : Env) (s s1 : Scope) (x : Node) (t : Option Ty)
    (hx : Scope.TypeOf E s x = (.ret t none, s1)) (href : E.types.AsRef t = none) :
    Scope.TypeOf E s (.PostfixOp .OperatorUnwrap x) = (.ret (some Unit.toTy) none, s1) := by
  rw [TypeOf_PostfixOp_unfold, hx]
  simp [Out.andThen, href, Out.ok]

/-- The case `CurlyList` of `TypeOf`, unfolded. -/
theorem TypeOf_CurlyList_unfold (E : Env) (s : Scope) (nodes : List Node) :
    Scope.TypeOf E s (.CurlyList nodes) = blockLoop E s (some Unit.toTy) nodes := rfl

/-- The case `If` of `TypeOf`, unfolded, with the loop of the if-body. -/
theorem TypeOf_If_unfold_loop (E : Env) (s : Scope) (cond : Node) (body : List Node)
    (els : Option Node) :
    Scope.TypeOf E s (.If cond body els) =
      (blockLoop E s (some Unit.toTy) body).andThen fun tBody s =>
        match els with
        | some elseBody =>
          match Scope.TypeOf E s elseBody with
          | (.panicked m, s) => (.panicked m, s)
          | (.ret _ (some err), s) => (.ret tBody (some err), s)
          | (.ret tElse none, s) =>
            match lastNodeInBody elseBody with
            | none => Out.panic "index out of range [-1]" s
            | some last =>
              if branchMismatch E.types tBody tElse then
                Out.fail last ("all branches must have the same type with first branch ("
                  ++ fmtType E.types tBody ++ "), but have type '" ++ fmtType E.types tElse
                  ++ "'") s
              else ifCondition E.types tBody cond (Scope.TypeOf E s cond)
        | none => ifCondition E.types tBody cond (Scope.TypeOf E s cond) := by
  cases els <;> rfl

/-- The case `If` of `TypeOf`, unfolded: `scope.TypeOf(node.Body)` first, then
the else-branch, then the condition. -/
theorem TypeOf_If_unfold (E : Env) (s : Scope) (cond : Node) (body : List Node)
    (els : Option Node) :
    Scope.TypeOf E s (.If cond body els) =
      (Scope.TypeOf E s (.CurlyList body)).andThen fun tBody s =>
        match els with
        | some elseBody =>
          match Scope.TypeOf E s elseBody with
          | (.panicked m, s) => (.panicked m, s)
          | (.ret _ (some err), s) => (.ret tBody (some err), s)
          | (.ret tElse none, s) =>
            match lastNodeInBody elseBody with
            | none => Out.panic "index out of range [-1]" s
            | some last =>
              if branchMismatch E.types tBody tElse then
                Out.fail last ("all branches must have the same type with first branch ("
                  ++ fmtType E.types tBody ++ "), but have type '" ++ fmtType E.types tElse
                  ++ "'") s
              else ifCondition E.types tBody cond (Scope.TypeOf E s cond)
        | none => ifCondition E.types tBody cond (Scope.TypeOf E s cond) := by
  rw [TypeOf_CurlyList_unfold]
  exact TypeOf_If_unfold_loop E s cond body els

/-- An `if` with an else-branch whose body has a last node: when the two
bodies check without error the result is the branch mismatch error on that last
node, or else the result of the condition check, which returns the type of the
if-body. -/
theorem TypeOf_If_else (E : Env) (s s1 s2 : Scope) (cond elseBody last : Node)
    (body : List Node) (tBody tElse : Option Ty)
    (hb : Scope.TypeOf E s (.CurlyList body) = (.ret tBody none, s1))
    (he : Scope.TypeOf E s1 elseBody = (.ret tElse none, s2))
    (hl : lastNodeInBody elseBody = some last) :
    Scope.TypeOf E s (.If cond body (some elseBody)) =
      if branchMismatch E.types tBody tElse then
        Out.fail last ("all branches must have the same type with first branch ("
          ++ fmtType E.types tBody ++ "), but have type '" ++ fmtType E.types tElse
          ++ "'") s2
      else ifCondition E.types tBody cond (Scope.TypeOf E s2 cond) := by
  rw [TypeOf_If_unfold, hb]
  simp only [Out.andThen, he, hl]

/-- An `if` with an else-branch whose body is an empty brace block panics as
soon as both bodies check without error. -/
theorem TypeOf_If_else_empty (E : Env) (s s1 s2 : Scope) (cond : Node)
    (body : List Node) (tBody tElse : Option Ty)
    (hb : Scope.TypeOf E s (.CurlyList body) = (.ret tBody none, s1))
    (he : Scope.TypeOf E s1 (.CurlyList []) = (.ret tElse none, s2)) :
    Scope.TypeOf E s (.If cond body (some (.CurlyList []))) =
      (.panicked "index out of range [-1]", s2) := by
  rw [TypeOf_If_unfold, hb]
  simp only [Out.andThen, he, lastNodeInBody, List.getLast?_nil, Out.panic]

/-- One round of the loop of the case `CurlyList` is one call of
`Block.visit`. -/
theorem blockLoop_cons (E : Env) (s : Scope) (t : Option Ty) (node : Node)
    (rest : List Node) :
    blockLoop E s t (node :: rest) =
      (match Block.visit E ⟨s, t⟩ node with
      | (.panicked m, b) => (.panicked m, b.scope)
      | (.ret (some err), b) => (.ret none (some err), b.scope)
      | (.ret none, b) => blockLoop E b.scope b.t rest) := by
  cases node <;>
    first
    | rfl
    | (show ((Scope.TypeOf E s _).andThen fun t s => blockLoop E s t rest) = _
       simp only [Block.visit]
       generalize Scope.TypeOf E s _ = o
       rcases o with ⟨⟨t1, _ | e⟩ | _, s1⟩ <;> rfl)
    | (show ((resolveVarDecl E s _).andThen fun t s =>
          match s.Define ⟨_, t⟩ with
          | (some _, s) => (.ret none (some (E.errorAlreadyDefined _)), s)
          | (none, s) => blockLoop E s (some Unit.toTy) rest) = _
       simp only [Block.visit]
       generalize resolveVarDecl E s _ = o
       rcases o with ⟨⟨t1, _ | e⟩ | _, s1⟩
       · simp only [Out.andThen]
         generalize Scope.Define s1 _ = d
         rcases d with ⟨_ | d, s2⟩ <;> rfl
       · rfl
       · rfl)

/-- The case `CurlyList` of `TypeOf` is the loop of `block.visit` over the
nodes of the block, started from `NewBlock(scope)`. -/
theorem blockLoop_eq_walkBlock (E : Env) (nodes : List Node) :
    ∀ (s : Scope) (t : Option Ty), blockLoop E s t nodes = walkBlock E ⟨s, t⟩ nodes := by
  induction nodes with
  | nil =>
    intro s t
    rfl
  | cons node rest ih =>
    intro s t
    rw [blockLoop_cons, walkBlock]
    generalize Block.visit E ⟨s, t⟩ node = r
    rcases r with ⟨⟨_ | e⟩ | _, b⟩
    · exact ih b.scope b.t
    · rfl
    · rfl

/-- The case `CurlyList` of `TypeOf` as written in the source. -/
theorem TypeOf_CurlyList (E : Env) (s : Scope) (nodes : List Node) :
    Scope.TypeOf E s (.CurlyList nodes) = walkBlock E (NewBlock s) nodes := by
  rw [TypeOf_CurlyList_unfold, blockLoop_eq_walkBlock]
  rfl

/-! ## Claims on `TypeOf` -/

/-- C7: the statement "if `Scope.TypeOf` returns no error then the type it
returns is not nil" fails on the code: for the node `while b {}` in a scope
where `b` has type `bool`, `TypeOf` returns a nil type and a nil error. -/
theorem C7_TypeOf_while_nil_type_nil_error :
    Scope.TypeOf specEnv scopeBN (.While (.Ident "b") (.CurlyList [])) = (.ret none none, scopeBN)
    ∧ ¬ (∀ (E : Env) (s s2 : Scope) (node : Node) (t : Option Ty),
          Scope.TypeOf E s node = (.ret t none, s2) → t ≠ none) :=
  ⟨rfl, fun h => h specEnv scopeBN scopeBN (.While (.Ident "b") (.CurlyList [])) none rfl rfl⟩

/-- C8: the statement "a while node whose body types to a type other than unit
fails with an error reported on the body" fails on the code: in a scope where
`b` has type `bool` the body of `while b { 1 }` types to the untyped int
primitive without error, and `typeCheckWhile` returns a nil error. -/
theorem C8_typeCheckWhile_accepts_value_body :
    Scope.TypeOf specEnv scopeBN (.CurlyList [.Literal .IntLiteral "1"])
        = (.ret (some (Primitives PrimitiveKind.UntypedInt)) none, scopeBN)
    ∧ Ty.Equals specTypes Unit.toTy (some (Primitives PrimitiveKind.UntypedInt)) = false
    ∧ typeCheckWhile specEnv (.Ident "b") (.CurlyList [.Literal .IntLiteral "1"]) scopeBN
        = (.ret none none, scopeBN) :=
  ⟨rfl, rfl, rfl⟩

/-- C9: the statement "a postfix unwrap of an operand whose type is not a
reference type fails with an error" fails on the code: in a scope where `b` has
type `bool`, which is not a reference type, the unwrap of `b` returns the unit
type and a nil error. -/
theorem C9_TypeOf_unwrap_non_ref_returns_unit :
    Scope.TypeOf specEnv scopeBN (.Ident "b") = (.ret (some (Primitives PrimitiveKind.Bool)) none, scopeBN)
    ∧ specTypes.AsRef (some (Primitives PrimitiveKind.Bool)) = none
    ∧ Scope.TypeOf specEnv scopeBN (.PostfixOp .OperatorUnwrap (.Ident "b"))
        = (.ret (some Unit.toTy) none, scopeBN) :=
  ⟨rfl, rfl, rfl⟩

/-- C10: the statement "an if/else whose two bodies are empty blocks succeeds
with the unit type" fails on the code: in a scope where `b` has type `bool`,
both bodies of `if b {} else {}` type to unit, and `TypeOf` panics on the index
`len(body.Nodes)-1` of the empty else-body. -/
theorem C10_TypeOf_if_else_empty_panics :
    Scope.TypeOf specEnv scopeBN (.CurlyList []) = (.ret (some Unit.toTy) none, scopeBN)
    ∧ Scope.TypeOf specEnv scopeBN (.Ident "b") = (.ret (some (Primitives PrimitiveKind.Bool)) none, scopeBN)
    ∧ Scope.TypeOf specEnv scopeBN (.If (.Ident "b") [] (some (.CurlyList [])))
        = (.panicked "index out of range [-1]", scopeBN) :=
  ⟨rfl, rfl, rfl⟩

/-! ## Lemmas on brace blocks -/

/-- `TypeOf` panics on a variable declaration: it is no expression. -/
theorem TypeOf_VarDecl (E : Env) (s : Scope) (name : String) (type value : Option Node) :
    Scope.TypeOf E s (.VarDecl name type value)
      = (.panicked "type checking is not implemented", s) := rfl

/-- When the first statements of a block check without error, the loop goes on
with the remaining statements in the scope and with the type they leave. -/
theorem blockLoop_append (E : Env) (rest : List Node) :
    ∀ (init : List Node) (s s1 : Scope) (t t1 : Option Ty),
      blockLoop E s t init = (.ret t1 none, s1) →
      blockLoop E s t (init ++ rest) = blockLoop E s1 t1 rest := by
  intro init
  induction init with
  | nil =>
    intro s s1 t t1 h
    have h0 : blockLoop E s t [] = (.ret t none, s) := rfl
    rw [h0] at h
    simp only [Prod.mk.injEq, Res.ret.injEq, and_true] at h
    rw [List.nil_append, h.1, h.2]
  | cons node init ih =>
    intro s s1 t t1 h
    rw [blockLoop_cons] at h
    rw [List.cons_append, blockLoop_cons]
    generalize Block.visit E ⟨s, t⟩ node = r at h ⊢
    rcases r with ⟨⟨_ | e⟩ | _, b⟩
    · exact ih b.scope s1 b.t t1 h
    · simp at h
    · simp at h

/-- A last statement that `TypeOf` checks without error gives the block its
type. -/
theorem blockLoop_last_expr (E : Env) (s s2 : Scope) (t0 t : Option Ty) (last : Node)
    (h : Scope.TypeOf E s last = (.ret t none, s2)) :
    blockLoop E s t0 [last] = (.ret t none, s2) := by
  rw [blockLoop_cons]
  cases last <;>
    first
    | (simp only [Block.visit, h]; rfl)
    | (exfalso
       have h2 := h
       simp only [show ∀ (n : String) (a b : Option Node), Scope.TypeOf E s (.VarDecl n a b)
         = (.panicked "type checking is not implemented", s) from fun _ _ _ => rfl,
         show ∀ (n : String) (a : Node), Scope.TypeOf E s (.TypeAliasDecl n a)
         = (.panicked "type checking is not implemented", s) from fun _ _ => rfl,
         show ∀ (n : String) (a : List Node) (b : Option Node) (c : Option (List Node)),
           Scope.TypeOf E s (.FuncDecl n a b c)
         = (.panicked "type checking is not implemented", s) from fun _ _ _ _ => rfl,
         show ∀ (n : String) (a : Node), Scope.TypeOf E s (.ModuleDecl n a)
         = (.panicked "type checking is not implemented", s) from fun _ _ => rfl] at h2
       simp at h2)

/-- A last statement that is a variable declaration, resolved and defined
without error, gives the block the unit type. -/
theorem blockLoop_last_decl (E : Env) (s s2 s3 : Scope) (t0 t : Option Ty) (name : String)
    (type value : Option Node)
    (h : resolveVarDecl E s (.VarDecl name type value) = (.ret t none, s2))
    (hd : s2.Define ⟨name, t⟩ = (none, s3)) :
    blockLoop E s t0 [.VarDecl name type value] = (.ret (some Unit.toTy) none, s3) := by
  rw [blockLoop_cons]
  simp only [Block.visit, h, hd]
  rfl

/-! ## Claims on brace blocks -/

/-- C11: the type of a brace block whose statements all check without error
is the unit type when the block is empty, the type of its last statement when
that statement is checked by `TypeOf` (it is no variable declaration), and the
unit type when its last statement is a variable declaration; `init` are the
statements before the last one. -/
theorem C11_block_type_is_last_statement (E : Env) (s s1 : Scope) (init : List Node)
    (t1 : Option Ty) (hinit : Scope.TypeOf E s (.CurlyList init) = (.ret t1 none, s1)) :
    Scope.TypeOf E s (.CurlyList []) = (.ret (some Unit.toTy) none, s)
    ∧ (∀ (last : Node) (t : Option Ty) (s2 : Scope),
        Scope.TypeOf E s1 last = (.ret t none, s2) →
        Scope.TypeOf E s (.CurlyList (init ++ [last])) = (.ret t none, s2))
    ∧ (∀ (name : String) (type value : Option Node) (t : Option Ty) (s2 s3 : Scope),
        resolveVarDecl E s1 (.VarDecl name type value) = (.ret t none, s2) →
        s2.Define ⟨name, t⟩ = (none, s3) →
        Scope.TypeOf E s (.CurlyList (init ++ [.VarDecl name type value]))
          = (.ret (some Unit.toTy) none, s3)) := by
  rw [TypeOf_CurlyList_unfold] at hinit
  refine ⟨rfl, ?_, ?_⟩
  · intro last t s2 h
    rw [TypeOf_CurlyList_unfold, blockLoop_append E [last] init s s1 _ t1 hinit]
    exact blockLoop_last_expr E s1 s2 t1 t last h
  · intro name type value t s2 s3 h hd
    rw [TypeOf_CurlyList_unfold, blockLoop_append E _ init s s1 _ t1 hinit]
    exact blockLoop_last_decl E s1 s2 s3 t1 t name type value h hd

/-- Witness for C11: in a scope where `n` has type `i32`, the block
`{ x := 1; n }` has the type of `n` and the block `{ x := 1; y := n }` has the
unit type. -/
theorem C11_block_type_is_last_statement_witness :
    Scope.TypeOf specEnv scopeBN (.CurlyList [.VarDecl "x" none (some (.Literal .IntLiteral "1"))])
      = (.ret (some Unit.toTy) none, scopeX)
    ∧ Scope.TypeOf specEnv scopeBN
        (.CurlyList ([.VarDecl "x" none (some (.Literal .IntLiteral "1"))] ++ [.Ident "n"]))
      = (.ret (some (Primitives PrimitiveKind.I32)) none, scopeX) :=
  ⟨rfl,
    (C11_block_type_is_last_statement specEnv scopeBN scopeX
      [.VarDecl "x" none (some (.Literal .IntLiteral "1"))] (some Unit.toTy) rfl).2.1
      (.Ident "n") (some (Primitives PrimitiveKind.I32)) scopeX rfl⟩

/-- A block that holds one declaration `name := value` defines `name` in the
scope that the block is checked in: the result is decided by `Define` on that
scope, as the check of the initializer leaves it. -/
theorem TypeOf_block_single_decl (E : Env) (s s1 : Scope) (name : String)
    (valueNode : Node) (V : Ty)
    (hV : Scope.TypeOf E s valueNode = (.ret (some V) none, s1))
    (hnt : E.types.IsTypeDesc (Ty.Underlying E.types V) = false) :
    Scope.TypeOf E s (.CurlyList [.VarDecl name none (some valueNode)]) =
      (match s1.Define ⟨name, E.types.SkipUntyped (some V)⟩ with
      | (some _, s2) => (.ret none (some (E.errorAlreadyDefined name)), s2)
      | (none, s2) => (.ret (some Unit.toTy) none, s2)) := by
  have hres : resolveVarDecl E s (.VarDecl name none (some valueNode))
      = (.ret (E.types.SkipUntyped (some V)) none, s1) := by
    have h1 : resolveVarDecl E s (.VarDecl name none (some valueNode))
        = (Scope.TypeOf E s valueNode).andThen fun tValue s =>
          match tValue with
          | none => Out.panic nilDeref s
          | some tv =>
            if E.types.IsTypeDesc (Ty.Underlying E.types tv) then
              Out.fail valueNode ("expected value, got type '"
                ++ fmtType E.types (Ty.Underlying E.types tv) ++ "' instead") s
            else (.ret (E.types.SkipUntyped (some tv)) none, s) := rfl
    rw [h1, hV]
    simp only [Out.andThen, hnt, Bool.false_eq_true, if_false]
  rw [TypeOf_CurlyList_unfold, blockLoop_cons]
  simp only [Block.visit, hres]
  generalize Scope.Define s1 ⟨name, E.types.SkipUntyped (some V)⟩ = d
  rcases d with ⟨_ | d, s2⟩ <;> rfl

/-- C12: the statement "a brace block is checked in a freshly nested scope"
fails on the code: `NewBlock(scope)` keeps the scope it is given and
`Block.visit` defines the variables of the block in it.  In the scope `scopeBN`,
which defines `b`, the block `{ b := 1 }` is rejected as a redefinition, and the
block `{ x := 1 }` leaves the scope with a symbol `x` that it did not have. -/
theorem C12_block_defines_in_given_scope :
    Scope.TypeOf specEnv scopeBN
        (.CurlyList [.VarDecl "b" none (some (.Literal .IntLiteral "1"))])
      = (.ret none (some ⟨.Ident "b", "identifier is already defined"⟩), scopeBN)
    ∧ Scope.TypeOf specEnv scopeBN
        (.CurlyList [.VarDecl "x" none (some (.Literal .IntLiteral "1"))])
      = (.ret (some Unit.toTy) none, scopeX)
    ∧ (scopeBN.Lookup "x").isNone = true
    ∧ (scopeX.Lookup "x").isSome = true
    ∧ (NewBlock scopeBN).scope = scopeBN :=
  ⟨rfl, rfl, rfl, rfl, rfl⟩

/-! ## Lemmas and claims on the case `Index` -/

/-- The case `Index` of `TypeOf` with one index argument, unfolded. -/
theorem TypeOf_Index_unfold (E : Env) (s : Scope) (x arg : Node) :
    Scope.TypeOf E s (.Index x [arg]) =
      (Scope.TypeOf E s x).andThen fun t s =>
        (Scope.TypeOf E s arg).andThen fun i s => indexResult E t i x arg s := rfl

/-- An integer literal has the untyped int type. -/
theorem TypeOf_IntLiteral (E : Env) (s : Scope) (value : String) :
    Scope.TypeOf E s (.Literal .IntLiteral value)
      = (.ret (some (Primitives PrimitiveKind.UntypedInt)) none, s) := rfl

/-- C13: for an index node whose base checks to a type `t` that is a tuple
(`AsArray(t)` is nil and `AsTuple(t)` is `tuple`): with an integer literal index
of value `k` (as `strconv.ParseInt` reads it with 64 bits), `TypeOf` yields the
element of the tuple at position `k` when `0 <= k <= Len - 1` and fails with
"index must be in range" otherwise, in particular for every `k` when the tuple
is empty; it never panics on the element access; and an index that is no
integer literal is rejected with "expected integer literal" once it is
checked. -/
theorem C13_tuple_index_in_range (E : Env) (s s1 : Scope) (x : Node) (t : Option Ty)
    (tuple : Tuple) (hx : Scope.TypeOf E s x = (.ret t none, s1))
    (harr : E.types.AsArray t = none) (htup : E.types.AsTuple t = some tuple) :
    (∀ (value : String) (k : Int), E.ParseInt value 0 64 = some k →
      (0 ≤ k ∧ k ≤ (tuple.Len : Int) - 1 →
        ∃ elem, tuple.types[k.toNat]? = some elem
          ∧ Scope.TypeOf E s (.Index x [.Literal .IntLiteral value])
            = (.ret (some elem) none, s1))
      ∧ (¬ (0 ≤ k ∧ k ≤ (tuple.Len : Int) - 1) →
          Scope.TypeOf E s (.Index x [.Literal .IntLiteral value])
            = (.ret none (some ⟨.Literal .IntLiteral value,
                "index must be in range 0.." ++ toString ((tuple.Len : Int) - 1)⟩), s1))
      ∧ (tuple.Len = 0 →
          Scope.TypeOf E s (.Index x [.Literal .IntLiteral value])
            = (.ret none (some ⟨.Literal .IntLiteral value,
                "index must be in range 0.." ++ toString ((tuple.Len : Int) - 1)⟩), s1))
      ∧ (∀ (m : String) (s2 : Scope),
          Scope.TypeOf E s (.Index x [.Literal .IntLiteral value]) ≠ (.panicked m, s2)))
    ∧ (∀ (arg : Node) (i : Option Ty) (s2 : Scope),
        (∀ value : String, arg ≠ .Literal .IntLiteral value) →
        Scope.TypeOf E s1 arg = (.ret i none, s2) →
        Scope.TypeOf E s (.Index x [arg])
          = (.ret none (some ⟨arg, "expected integer literal"⟩), s2)) := by
  constructor
  · intro value k hk
    have hres : Scope.TypeOf E s (.Index x [.Literal .IntLiteral value]) =
        if k < 0 ∨ k > (tuple.Len : Int) - 1 then
          Out.fail (.Literal .IntLiteral value)
            ("index must be in range 0.." ++ toString ((tuple.Len : Int) - 1)) s1
        else
          match tuple.types[k.toNat]? with
          | some elem => Out.ok elem s1
          | none => Out.panic "index out of range" s1 := by
      rw [TypeOf_Index_unfold, hx]
      simp only [Out.andThen, TypeOf_IntLiteral, indexResult, harr, htup, hk]
    have hbad : ¬ (0 ≤ k ∧ k ≤ (tuple.Len : Int) - 1) →
        Scope.TypeOf E s (.Index x [.Literal .IntLiteral value])
          = (.ret none (some ⟨.Literal .IntLiteral value,
              "index must be in range 0.." ++ toString ((tuple.Len : Int) - 1)⟩), s1) := by
      intro hr
      have hc : k < 0 ∨ k > (tuple.Len : Int) - 1 := by omega
      rw [hres, if_pos hc]
      rfl
    have hgood : 0 ≤ k ∧ k ≤ (tuple.Len : Int) - 1 →
        ∃ elem, tuple.types[k.toNat]? = some elem
          ∧ Scope.TypeOf E s (.Index x [.Literal .IntLiteral value])
            = (.ret (some elem) none, s1) := by
      intro hr
      have hc : ¬ (k < 0 ∨ k > (tuple.Len : Int) - 1) := by omega
      have hlt : k.toNat < tuple.types.length := by
        have : (tuple.Len : Int) = (tuple.types.length : Int) := rfl
        omega
      refine ⟨tuple.types[k.toNat], List.getElem?_eq_getElem hlt, ?_⟩
      rw [hres, if_neg hc, List.getElem?_eq_getElem hlt]
      rfl
    refine ⟨hgood, hbad, ?_, ?_⟩
    · intro h0
      apply hbad
      omega
    · intro m s2
      by_cases hr : 0 ≤ k ∧ k ≤ (tuple.Len : Int) - 1
      · obtain ⟨elem, _, he⟩ := hgood hr
        rw [he]
        simp
      · rw [hbad hr]
        simp
  · intro arg i s2 hlit harg
    rw [TypeOf_Index_unfold, hx]
    simp only [Out.andThen, harg, indexResult, harr, htup]
    rfl

/-- Witness for C13: in the scope `scopeT`, where `p` has the tuple type
`(i32, bool, i32)`, the index `p[1]` has the type `bool` and the index `p[5]`
fails with "index must be in range 0..2". -/
theorem C13_tuple_index_in_range_witness :
    Scope.TypeOf specEnv scopeT (.Ident "p")
      = (.ret (some (.tuple [Primitives PrimitiveKind.I32, Primitives PrimitiveKind.Bool,
          Primitives PrimitiveKind.I32])) none, scopeT)
    ∧ Scope.TypeOf specEnv scopeT (.Index (.Ident "p") [.Literal .IntLiteral "5"])
      = (.ret none (some ⟨.Literal .IntLiteral "5", "index must be in range 0..2"⟩), scopeT)
    ∧ Scope.TypeOf specEnv scopeT (.Index (.Ident "p") [.Literal .IntLiteral "1"])
      = (.ret (some (Primitives PrimitiveKind.Bool)) none, scopeT) :=
  ⟨rfl,
    (((C13_tuple_index_in_range specEnv scopeT scopeT (.Ident "p") _
      ⟨[Primitives PrimitiveKind.I32, Primitives PrimitiveKind.Bool,
        Primitives PrimitiveKind.I32]⟩ rfl rfl rfl).1 "5" 5 (by decide)).2.1
      (by decide)).trans rfl,
    rfl⟩

/-! ## Lemmas on lists of expressions -/

/-- When a non-empty list of expressions checks without error, so does its
first expression, and the others do in the scope it leaves. -/
theorem typesOfList_cons (E : Env) (s s2 : Scope) (e : Node) (rest : List Node)
    (ts : List (Option Ty)) (h : typesOfList E s (e :: rest) = some (ts, s2)) :
    ∃ (t : Option Ty) (s1 : Scope) (ts1 : List (Option Ty)),
      Scope.TypeOf E s e = (.ret t none, s1) ∧ typesOfList E s1 rest = some (ts1, s2)
        ∧ ts = t :: ts1 := by
  rw [typesOfList] at h
  generalize Scope.TypeOf E s e = o at h ⊢
  rcases o with ⟨⟨t, _ | err⟩ | m, s1⟩
  · simp only at h
    rcases hr : typesOfList E s1 rest with _ | ⟨ts1, s3⟩
    · simp [hr] at h
    · simp only [hr, Option.some.injEq, Prod.mk.injEq] at h
      exact ⟨t, s1, ts1, rfl, by rw [hr, h.2], h.1.symm⟩
  · simp at h
  · simp at h

/-- A list of expressions that checks without error has as many types as
expressions. -/
theorem typesOfList_length (E : Env) :
    ∀ (exprs : List Node) (s s2 : Scope) (ts : List (Option Ty)),
      typesOfList E s exprs = some (ts, s2) → ts.length = exprs.length := by
  intro exprs
  induction exprs with
  | nil =>
    intro s s2 ts h
    rw [typesOfList] at h
    simp only [Option.some.injEq, Prod.mk.injEq] at h
    rw [← h.1]
    rfl
  | cons e rest ih =>
    intro s s2 ts h
    obtain ⟨t, s1, ts1, _, h2, h3⟩ := typesOfList_cons E s s2 e rest ts h
    rw [h3, List.length_cons, List.length_cons, ih s1 s2 ts1 h2]

/-! ## Lemmas and claims on the case `BracketList` -/

/-- One round of the loop of the case `BracketList`. -/
theorem bracketLoop_cons (E : Env) (elemType : Option Ty) (s : Scope) (expr : Node)
    (rest : List Node) :
    bracketLoop E elemType s (expr :: rest) =
      (Scope.TypeOf E s expr).andThen fun t s =>
        match elemType with
        | none => bracketLoop E (E.types.SkipUntyped t) s rest
        | some et =>
          if !(Ty.Equals E.types et t) then
            Out.fail expr ("expected type '" ++ Ty.String E.types et
              ++ "' for element, got '" ++ fmtType E.types t ++ "' instead") s
          else bracketLoop E (some et) s rest := rfl

/-- The case `BracketList` of `TypeOf`, unfolded. -/
theorem TypeOf_BracketList_unfold (E : Env) (s : Scope) (exprs : List Node) :
    Scope.TypeOf E s (.BracketList exprs) =
      (bracketLoop E none s exprs).andThen fun elemType s =>
        Out.ok (NewArray E.types (exprs.length : Int) elemType) s := rfl

/-- The loop of the case `BracketList`, entered with an element type `et`, over
expressions that all check without error: either every type is equal to `et`
and the loop ends with `et`, or the loop fails on the first expression whose
type is not. -/
theorem bracketLoop_cases (E : Env) (et : Ty) :
    ∀ (rest : List Node) (s s2 : Scope) (ts : List (Option Ty)),
      typesOfList E s rest = some (ts, s2) →
      ((∀ (i : Nat) (Ti : Option Ty), ts[i]? = some Ti → Ty.Equals E.types et Ti = true)
          ∧ bracketLoop E (some et) s rest = (.ret (some et) none, s2))
      ∨ (∃ (j : Nat) (ej : Node) (Tj : Option Ty), rest[j]? = some ej ∧ ts[j]? = some Tj
          ∧ Ty.Equals E.types et Tj = false
          ∧ (∀ (i : Nat) (Ti : Option Ty), i < j → ts[i]? = some Ti →
              Ty.Equals E.types et Ti = true)
          ∧ (bracketLoop E (some et) s rest).1
              = .ret none (some ⟨ej, "expected type '" ++ Ty.String E.types et
                  ++ "' for element, got '" ++ fmtType E.types Tj ++ "' instead"⟩)) := by
  intro rest
  induction rest with
  | nil =>
    intro s s2 ts h
    rw [typesOfList] at h
    simp only [Option.some.injEq, Prod.mk.injEq] at h
    left
    refine ⟨?_, ?_⟩
    · intro i Ti hi
      rw [← h.1] at hi
      simp at hi
    · rw [← h.2]
      rfl
  | cons e rest ih =>
    intro s s2 ts h
    obtain ⟨t, s1, ts1, he, hrest, hts⟩ := typesOfList_cons E s s2 e rest ts h
    subst hts
    rw [bracketLoop_cons, he]
    simp only [Out.andThen]
    by_cases hEq : Ty.Equals E.types et t = true
    · simp only [hEq, Bool.not_true, Bool.false_eq_true, if_false]
      rcases ih s1 s2 ts1 hrest with ⟨hall, hloop⟩ | ⟨j, ej, Tj, hej, hTj, hne, hlt, hloop⟩
      · left
        refine ⟨?_, hloop⟩
        intro i Ti hi
        cases i with
        | zero =>
          simp only [List.getElem?_cons_zero, Option.some.injEq] at hi
          rw [← hi]
          exact hEq
        | succ i =>
          simp only [List.getElem?_cons_succ] at hi
          exact hall i Ti hi
      · right
        refine ⟨j + 1, ej, Tj, by simpa using hej, by simpa using hTj, hne, ?_, hloop⟩
        intro i Ti hi hTi
        cases i with
        | zero =>
          simp only [List.getElem?_cons_zero, Option.some.injEq] at hTi
          rw [← hTi]
          exact hEq
        | succ i =>
          simp only [List.getElem?_cons_succ] at hTi
          exact hlt i Ti (by omega) hTi
    · right
      have hf : Ty.Equals E.types et t = false := by simpa using hEq
      refine ⟨0, e, t, by simp, by simp, hf, ?_, ?_⟩
      · intro i Ti hi
        omega
      · simp only [hf, Bool.not_false, if_true]
        rfl

/-- A string literal has the untyped string type. -/
theorem TypeOf_StringLiteral (E : Env) (s : Scope) (value : String) :
    Scope.TypeOf E s (.Literal .StringLiteral value)
      = (.ret (some (Primitives PrimitiveKind.UntypedString)) none, s) := rfl

/-- C14: for a non-empty bracket list `e0 :: rest` whose elements check to the
types `T0 :: Ts`, with `Et = SkipUntyped(T0)`: `TypeOf` succeeds if and only if
`Et.Equals(Ti)` for every later element type `Ti`, and then yields the array
type of size `n` with element type `Et`; otherwise it fails with an error
reported on the first later element whose type `Et` does not equal, naming
`Et` and that type (position `j` of `rest` is position `j + 1` of the list).
For `[1, 2, "x"]` the error is on the third element whenever the concretized
type of the first equals the untyped int type and not the untyped string type. -/
theorem C14_bracket_list (E : Env) (s s2 : Scope) (e0 : Node) (rest : List Node)
    (T0 : Option Ty) (Ts : List (Option Ty)) (Et : Ty)
    (hall : typesOfList E s (e0 :: rest) = some (T0 :: Ts, s2))
    (hE : E.types.SkipUntyped T0 = some Et) :
    ((∃ (t : Option Ty) (s3 : Scope),
        Scope.TypeOf E s (.BracketList (e0 :: rest)) = (.ret t none, s3))
      ↔ ∀ (i : Nat) (Ti : Option Ty), Ts[i]? = some Ti → Ty.Equals E.types Et Ti = true)
    ∧ ((∀ (i : Nat) (Ti : Option Ty), Ts[i]? = some Ti → Ty.Equals E.types Et Ti = true) →
        Scope.TypeOf E s (.BracketList (e0 :: rest))
          = (.ret (some (.array ((e0 :: rest).length : Int) Et)) none, s2))
    ∧ (∀ (j : Nat) (ej : Node) (Tj : Option Ty), rest[j]? = some ej → Ts[j]? = some Tj →
        Ty.Equals E.types Et Tj = false →
        (∀ (i : Nat) (Ti : Option Ty), i < j → Ts[i]? = some Ti →
          Ty.Equals E.types Et Ti = true) →
        (Scope.TypeOf E s (.BracketList (e0 :: rest))).1
          = .ret none (some ⟨ej, "expected type '" ++ Ty.String E.types Et
              ++ "' for element, got '" ++ fmtType E.types Tj ++ "' instead"⟩))
    ∧ (∀ (s0 : Scope) (Ei : Ty),
        E.types.SkipUntyped (some (Primitives PrimitiveKind.UntypedInt)) = some Ei →
        Ty.Equals E.types Ei (some (Primitives PrimitiveKind.UntypedInt)) = true →
        Ty.Equals E.types Ei (some (Primitives PrimitiveKind.UntypedString)) = false →
        (Scope.TypeOf E s0 (.BracketList [.Literal .IntLiteral "1", .Literal .IntLiteral "2",
            .Literal .StringLiteral "x"])).1
          = .ret none (some ⟨.Literal .StringLiteral "x", "expected type '"
              ++ Ty.String E.types Ei ++ "' for element, got '"
              ++ fmtType E.types (some (Primitives PrimitiveKind.UntypedString))
              ++ "' instead"⟩)) := by
  obtain ⟨t, s1, ts1, he0, hrest, hts⟩ := typesOfList_cons E s s2 e0 rest _ hall
  simp only [List.cons.injEq] at hts
  obtain ⟨hT0, hTs⟩ := hts
  subst hT0 hTs
  have hunf : Scope.TypeOf E s (.BracketList (e0 :: rest)) =
      (bracketLoop E (some Et) s1 rest).andThen fun elemType s =>
        Out.ok (NewArray E.types ((e0 :: rest).length : Int) elemType) s := by
    rw [TypeOf_BracketList_unfold, bracketLoop_cons, he0]
    simp only [Out.andThen, hE]
  have hok : (∀ (i : Nat) (Ti : Option Ty), Ts[i]? = some Ti →
      Ty.Equals E.types Et Ti = true) →
      Scope.TypeOf E s (.BracketList (e0 :: rest))
        = (.ret (some (.array ((e0 :: rest).length : Int) Et)) none, s2) := by
    intro hallEq
    rcases bracketLoop_cases E Et rest s1 s2 Ts hrest with
      ⟨_, hloop⟩ | ⟨j, ej, Tj, _, hTj, hne, _, _⟩
    · rw [hunf, hloop]
      rfl
    · rw [hallEq j Tj hTj] at hne
      cases hne
  have hfail : ∀ (j : Nat) (ej : Node) (Tj : Option Ty), rest[j]? = some ej →
      Ts[j]? = some Tj → Ty.Equals E.types Et Tj = false →
      (∀ (i : Nat) (Ti : Option Ty), i < j → Ts[i]? = some Ti →
        Ty.Equals E.types Et Ti = true) →
      (Scope.TypeOf E s (.BracketList (e0 :: rest))).1
        = .ret none (some ⟨ej, "expected type '" ++ Ty.String E.types Et
            ++ "' for element, got '" ++ fmtType E.types Tj ++ "' instead"⟩) := by
    intro j ej Tj hej hTj hne hlt
    rcases bracketLoop_cases E Et rest s1 s2 Ts hrest with
      ⟨hallEq, _⟩ | ⟨j2, ej2, Tj2, hej2, hTj2, hne2, hlt2, hloop⟩
    · rw [hallEq j Tj hTj] at hne
      cases hne
    · have hjj : j2 = j := by
        rcases Nat.lt_trichotomy j2 j with h | h | h
        · rw [hlt j2 Tj2 h hTj2] at hne2
          cases hne2
        · exact h
        · rw [hlt2 j Tj h hTj] at hne
          cases hne
      subst hjj
      rw [hej] at hej2
      rw [hTj] at hTj2
      simp only [Option.some.injEq] at hej2 hTj2
      subst hej2 hTj2
      rw [hunf]
      generalize bracketLoop E (some Et) s1 rest = o at hloop ⊢
      rcases o with ⟨r, s4⟩
      simp only at hloop
      subst hloop
      rfl
  refine ⟨⟨?_, fun h => ⟨_, _, hok h⟩⟩, hok, hfail, ?_⟩
  · rintro ⟨t, s3, hsucc⟩ i Ti hTi
    by_contra hcon
    rcases bracketLoop_cases E Et rest s1 s2 Ts hrest with
      ⟨hallEq, _⟩ | ⟨j2, ej2, Tj2, hej2, hTj2, hne2, hlt2, _⟩
    · exact hcon (hallEq i Ti hTi)
    · have := hfail j2 ej2 Tj2 hej2 hTj2 hne2 hlt2
      rw [hsucc] at this
      simp at this
  · intro s0 Ei h1 h2 h3
    rw [TypeOf_BracketList_unfold]
    simp only [bracketLoop_cons, TypeOf_IntLiteral, TypeOf_StringLiteral, Out.andThen, h1, h2,
      h3, Bool.not_true, Bool.not_false, Bool.false_eq_true, if_false, if_true, Out.fail]

/-- Witness for C14: in the scope `scopeT` the list `[n, n, "x"]` has the
element types `i32`, `i32` and untyped string, and `TypeOf` fails on its third
element. -/
theorem C14_bracket_list_witness :
    typesOfList specEnv scopeT [.Ident "n", .Ident "n", .Literal .StringLiteral "x"]
      = some ([some (Primitives PrimitiveKind.I32), some (Primitives PrimitiveKind.I32),
          some (Primitives PrimitiveKind.UntypedString)], scopeT)
    ∧ specTypes.SkipUntyped (some (Primitives PrimitiveKind.I32))
      = some (Primitives PrimitiveKind.I32)
    ∧ (Scope.TypeOf specEnv scopeT
        (.BracketList [.Ident "n", .Ident "n", .Literal .StringLiteral "x"])).1
      = .ret none (some ⟨.Literal .StringLiteral "x",
          "expected type 'i32' for element, got 'untyped string' instead"⟩)
    ∧ Scope.TypeOf specEnv scopeT (.BracketList [.Ident "n", .Ident "n"])
      = (.ret (some (.array 2 (Primitives PrimitiveKind.I32))) none, scopeT) :=
  ⟨rfl, rfl,
    (C14_bracket_list specEnv scopeT scopeT (.Ident "n")
      [.Ident "n", .Literal .StringLiteral "x"] (some (Primitives PrimitiveKind.I32))
      [some (Primitives PrimitiveKind.I32), some (Primitives PrimitiveKind.UntypedString)]
      (Primitives PrimitiveKind.I32) rfl rfl).2.2.1 1 (.Literal .StringLiteral "x")
      (some (Primitives PrimitiveKind.UntypedString)) rfl rfl rfl
      (fun i Ti hi hTi => by
        have h0 : i = 0 := by omega
        subst h0
        simp only [List.getElem?_cons_zero, Option.some.injEq] at hTi
        rw [← hTi]
        rfl),
    rfl⟩

/-! ## Lemmas and claims on the case `ParenList` -/

/-- The case `ParenList` of `TypeOf`, unfolded. -/
theorem TypeOf_ParenList_unfold (E : Env) (s : Scope) (exprs : List Node) :
    Scope.TypeOf E s (.ParenList exprs) = typeOfParenList E s exprs := rfl

/-- The case `ParenList` on a non-empty list: the first element, then the loop
over the others. -/
theorem typeOfParenList_cons (E : Env) (s : Scope) (first : Node) (rest : List Node) :
    typeOfParenList E s (first :: rest) =
      (Scope.TypeOf E s first).andThen fun t s =>
        if E.types.IsTypeDesc t then parenLoop E true [E.types.SkipTypeDesc t] s rest
        else parenLoop E false [E.types.SkipUntyped t] s rest := rfl

/-- The end of the loop of the case `ParenList`. -/
theorem parenLoop_nil (E : Env) (isTypeDescTuple : Bool) (elemTypes : List (Option Ty))
    (s : Scope) :
    parenLoop E isTypeDescTuple elemTypes s [] =
      if isTypeDescTuple then Out.ok (NewTypeDesc (NewTuple E.types elemTypes).toTy) s
      else Out.ok (NewTuple E.types elemTypes).toTy s := rfl

/-- One round of the loop of the case `ParenList`. -/
theorem parenLoop_cons (E : Env) (isTypeDescTuple : Bool) (elemTypes : List (Option Ty))
    (s : Scope) (expr : Node) (rest : List Node) :
    parenLoop E isTypeDescTuple elemTypes s (expr :: rest) =
      (Scope.TypeOf E s expr).andThen fun t s =>
        if isTypeDescTuple then
          if !(E.types.IsTypeDesc t) then
            Out.fail expr ("expected type, got '" ++ fmtType E.types t ++ "' instead") s
          else parenLoop E isTypeDescTuple (elemTypes ++ [E.types.SkipTypeDesc t]) s rest
        else
          if E.types.IsTypeDesc t then
            Out.fail expr ("expected expression, got type '" ++ fmtType E.types t
              ++ "' instead") s
          else parenLoop E isTypeDescTuple (elemTypes ++ [E.types.SkipUntyped t]) s rest := rfl

/-- The loop of the case `ParenList` over expressions that all check without
error: either every one agrees with the flag `isTypeDescTuple` and the loop ends
with all the element types appended, or it fails on the first that does not. -/
theorem parenLoop_cases (E : Env) (isTD : Bool) :
    ∀ (rest : List Node) (s s2 : Scope) (ts acc : List (Option Ty)),
      typesOfList E s rest = some (ts, s2) →
      ((∀ (i : Nat) (Ti : Option Ty), ts[i]? = some Ti → E.types.IsTypeDesc Ti = isTD)
          ∧ parenLoop E isTD acc s rest
              = parenLoop E isTD
                  (acc ++ ts.map (if isTD then E.types.SkipTypeDesc else E.types.SkipUntyped))
                  s2 [])
      ∨ (∃ (j : Nat) (ej : Node) (Tj : Option Ty), rest[j]? = some ej ∧ ts[j]? = some Tj
          ∧ E.types.IsTypeDesc Tj ≠ isTD
          ∧ (∀ (i : Nat) (Ti : Option Ty), i < j → ts[i]? = some Ti →
              E.types.IsTypeDesc Ti = isTD)
          ∧ (parenLoop E isTD acc s rest).1
              = .ret none (some ⟨ej,
                  if isTD then "expected type, got '" ++ fmtType E.types Tj ++ "' instead"
                  else "expected expression, got type '" ++ fmtType E.types Tj
                    ++ "' instead"⟩)) := by
  intro rest
  induction rest with
  | nil =>
    intro s s2 ts acc h
    rw [typesOfList] at h
    simp only [Option.some.injEq, Prod.mk.injEq] at h
    left
    refine ⟨?_, ?_⟩
    · intro i Ti hi
      rw [← h.1] at hi
      simp at hi
    · rw [← h.1, ← h.2]
      simp
  | cons e rest ih =>
    intro s s2 ts acc h
    obtain ⟨t, s1, ts1, he, hrest, hts⟩ := typesOfList_cons E s s2 e rest ts h
    subst hts
    rw [parenLoop_cons, he]
    simp only [Out.andThen]
    by_cases hag : E.types.IsTypeDesc t = isTD
    · have hstep : (if isTD = true then
            if (!E.types.IsTypeDesc t) = true then
              Out.fail e ("expected type, got '" ++ fmtType E.types t ++ "' instead") s1
            else parenLoop E isTD (acc ++ [E.types.SkipTypeDesc t]) s1 rest
          else
            if E.types.IsTypeDesc t = true then
              Out.fail e ("expected expression, got type '" ++ fmtType E.types t
                ++ "' instead") s1
            else parenLoop E isTD (acc ++ [E.types.SkipUntyped t]) s1 rest)
          = parenLoop E isTD
              (acc ++ [(if isTD then E.types.SkipTypeDesc else E.types.SkipUntyped) t])
              s1 rest := by
        cases isTD <;> simp [hag]
      rw [hstep]
      rcases ih s1 s2 ts1 (acc ++ [(if isTD then E.types.SkipTypeDesc
          else E.types.SkipUntyped) t]) hrest with
        ⟨hall, hloop⟩ | ⟨j, ej, Tj, hej, hTj, hne, hlt, hloop⟩
      · left
        refine ⟨?_, ?_⟩
        · intro i Ti hi
          cases i with
          | zero =>
            simp only [List.getElem?_cons_zero, Option.some.injEq] at hi
            rw [← hi]
            exact hag
          | succ i =>
            simp only [List.getElem?_cons_succ] at hi
            exact hall i Ti hi
        · rw [hloop]
          simp
      · right
        refine ⟨j + 1, ej, Tj, by simpa using hej, by simpa using hTj, hne, ?_, hloop⟩
        intro i Ti hi hTi
        cases i with
        | zero =>
          simp only [List.getElem?_cons_zero, Option.some.injEq] at hTi
          rw [← hTi]
          exact hag
        | succ i =>
          simp only [List.getElem?_cons_succ] at hTi
          exact hlt i Ti (by omega) hTi
    · right
      refine ⟨0, e, t, by simp, by simp, hag, ?_, ?_⟩
      · intro i Ti hi
        omega
      · cases isTD <;> simp_all [Out.fail]

/-- A list of non-nil types is stored by `NewTuple` as it is. -/
theorem nonNil_map_some (us : List Ty) : nonNil (us.map some) = some us := by
  induction us with
  | nil => rfl
  | cons u us ih => simp [nonNil, ih]

/-- C15: an empty parenthesized list has the unit type.  For a non-empty list
`e0 :: rest` whose elements check to the types `T0 :: Ts`: `TypeOf` succeeds if
and only if every later element agrees with the first on being a type
descriptor; when all are type descriptors the result is the type descriptor of
the tuple of their bases (`SkipTypeDesc`), when none is it is the tuple of their
concretized types (`SkipUntyped`); when these element types are not nil the
tuple holds exactly them, as many as list elements and in the same order; and
a mixed list fails with an error reported on the first later element that
differs from the first. -/
theorem C15_paren_list (E : Env) (s s2 : Scope) (e0 : Node) (rest : List Node)
    (T0 : Option Ty) (Ts : List (Option Ty))
    (hall : typesOfList E s (e0 :: rest) = some (T0 :: Ts, s2)) :
    (∀ s0 : Scope, Scope.TypeOf E s0 (.ParenList []) = (.ret (some Unit.toTy) none, s0))
    ∧ ((∃ (t : Option Ty) (s3 : Scope),
          Scope.TypeOf E s (.ParenList (e0 :: rest)) = (.ret t none, s3))
        ↔ ∀ (i : Nat) (Ti : Option Ty), Ts[i]? = some Ti →
            E.types.IsTypeDesc Ti = E.types.IsTypeDesc T0)
    ∧ ((∀ (i : Nat) (Ti : Option Ty), Ts[i]? = some Ti →
          E.types.IsTypeDesc Ti = E.types.IsTypeDesc T0) →
        E.types.IsTypeDesc T0 = true →
        Scope.TypeOf E s (.ParenList (e0 :: rest))
          = (.ret (some (NewTypeDesc
              (NewTuple E.types ((T0 :: Ts).map E.types.SkipTypeDesc)).toTy)) none, s2))
    ∧ ((∀ (i : Nat) (Ti : Option Ty), Ts[i]? = some Ti →
          E.types.IsTypeDesc Ti = E.types.IsTypeDesc T0) →
        E.types.IsTypeDesc T0 = false →
        Scope.TypeOf E s (.ParenList (e0 :: rest))
          = (.ret (some (NewTuple E.types ((T0 :: Ts).map E.types.SkipUntyped)).toTy)
              none, s2))
    ∧ (∀ (skip : Option Ty → Option Ty) (us : List Ty), (T0 :: Ts).map skip = us.map some →
        (NewTuple E.types ((T0 :: Ts).map skip)).types = us
          ∧ us.length = (e0 :: rest).length)
    ∧ (∀ (j : Nat) (ej : Node) (Tj : Option Ty), rest[j]? = some ej → Ts[j]? = some Tj →
        E.types.IsTypeDesc Tj ≠ E.types.IsTypeDesc T0 →
        (∀ (i : Nat) (Ti : Option Ty), i < j → Ts[i]? = some Ti →
          E.types.IsTypeDesc Ti = E.types.IsTypeDesc T0) →
        (Scope.TypeOf E s (.ParenList (e0 :: rest))).1
          = .ret none (some ⟨ej,
              if E.types.IsTypeDesc T0 then
                "expected type, got '" ++ fmtType E.types Tj ++ "' instead"
              else "expected expression, got type '" ++ fmtType E.types Tj
                ++ "' instead"⟩)) := by
  obtain ⟨t, s1, ts1, he0, hrest, hts⟩ := typesOfList_cons E s s2 e0 rest _ hall
  simp only [List.cons.injEq] at hts
  obtain ⟨hT0, hTs⟩ := hts
  subst hT0 hTs
  have hunf : Scope.TypeOf E s (.ParenList (e0 :: rest)) =
      parenLoop E (E.types.IsTypeDesc T0)
        [(if E.types.IsTypeDesc T0 then E.types.SkipTypeDesc else E.types.SkipUntyped) T0]
        s1 rest := by
    rw [TypeOf_ParenList_unfold, typeOfParenList_cons, he0]
    simp only [Out.andThen]
    cases hb : E.types.IsTypeDesc T0 <;> simp
  have hok : (∀ (i : Nat) (Ti : Option Ty), Ts[i]? = some Ti →
      E.types.IsTypeDesc Ti = E.types.IsTypeDesc T0) →
      Scope.TypeOf E s (.ParenList (e0 :: rest)) =
        parenLoop E (E.types.IsTypeDesc T0)
          ((T0 :: Ts).map (if E.types.IsTypeDesc T0 then E.types.SkipTypeDesc
            else E.types.SkipUntyped)) s2 [] := by
    intro hag
    rcases parenLoop_cases E (E.types.IsTypeDesc T0) rest s1 s2 Ts
        [(if E.types.IsTypeDesc T0 then E.types.SkipTypeDesc else E.types.SkipUntyped) T0]
        hrest with ⟨_, hloop⟩ | ⟨j, ej, Tj, _, hTj, hne, _, _⟩
    · rw [hunf, hloop]
      rfl
    · exact absurd (hag j Tj hTj) hne
  have hfail : ∀ (j : Nat) (ej : Node) (Tj : Option Ty), rest[j]? = some ej →
      Ts[j]? = some Tj → E.types.IsTypeDesc Tj ≠ E.types.IsTypeDesc T0 →
      (∀ (i : Nat) (Ti : Option Ty), i < j → Ts[i]? = some Ti →
        E.types.IsTypeDesc Ti = E.types.IsTypeDesc T0) →
      (Scope.TypeOf E s (.ParenList (e0 :: rest))).1
        = .ret none (some ⟨ej,
            if E.types.IsTypeDesc T0 then
              "expected type, got '" ++ fmtType E.types Tj ++ "' instead"
            else "expected expression, got type '" ++ fmtType E.types Tj
              ++ "' instead"⟩) := by
    intro j ej Tj hej hTj hne hlt
    rcases parenLoop_cases E (E.types.IsTypeDesc T0) rest s1 s2 Ts
        [(if E.types.IsTypeDesc T0 then E.types.SkipTypeDesc else E.types.SkipUntyped) T0]
        hrest with ⟨hag, _⟩ | ⟨j2, ej2, Tj2, hej2, hTj2, hne2, hlt2, hloop⟩
    · exact absurd (hag j Tj hTj) hne
    · have hjj : j2 = j := by
        rcases Nat.lt_trichotomy j2 j with h | h | h
        · exact absurd (hlt j2 Tj2 h hTj2) hne2
        · exact h
        · exact absurd (hlt2 j Tj h hTj) hne
      subst hjj
      rw [hej] at hej2
      rw [hTj] at hTj2
      simp only [Option.some.injEq] at hej2 hTj2
      subst hej2 hTj2
      rw [hunf, hloop]
  refine ⟨fun _ => rfl, ⟨?_, ?_⟩, ?_, ?_, ?_, hfail⟩
  · rintro ⟨t, s3, hsucc⟩ i Ti hTi
    by_contra hcon
    rcases parenLoop_cases E (E.types.IsTypeDesc T0) rest s1 s2 Ts
        [(if E.types.IsTypeDesc T0 then E.types.SkipTypeDesc else E.types.SkipUntyped) T0]
        hrest with ⟨hag, _⟩ | ⟨j2, ej2, Tj2, hej2, hTj2, hne2, hlt2, _⟩
    · exact hcon (hag i Ti hTi)
    · have := hfail j2 ej2 Tj2 hej2 hTj2 hne2 hlt2
      rw [hsucc] at this
      simp at this
  · intro hag
    rw [hok hag, parenLoop_nil]
    cases hb : E.types.IsTypeDesc T0 <;> exact ⟨_, _, rfl⟩
  · intro hag htd
    rw [hok hag, parenLoop_nil, htd]
    rfl
  · intro hag htd
    rw [hok hag, parenLoop_nil, htd]
    rfl
  · intro skip us hus
    refine ⟨?_, ?_⟩
    · rw [hus, NewTuple, nonNil_map_some]
    · have h1 := congrArg List.length hus
      simp only [List.length_map, List.length_cons] at h1
      have h2 := typesOfList_length E rest s1 s2 Ts hrest
      simp only [List.length_cons]
      omega

/-- Witness for C15: in the scope `scopeT` the list `(n, 1)` has the tuple type
`(i32, i32)`, the list `(i32, bool)` the type descriptor of the tuple
`(i32, bool)`, and the mixed list `(i32, n)` fails on its second element. -/
theorem C15_paren_list_witness :
    typesOfList specEnv scopeT [.Ident "i32", .Ident "n"]
      = some ([some (NewTypeDesc (Primitives PrimitiveKind.I32)),
          some (Primitives PrimitiveKind.I32)], scopeT)
    ∧ (Scope.TypeOf specEnv scopeT (.ParenList [.Ident "i32", .Ident "n"])).1
      = .ret none (some ⟨.Ident "n", "expected type, got 'i32' instead"⟩)
    ∧ Scope.TypeOf specEnv scopeT (.ParenList [.Ident "n", .Literal .IntLiteral "1"])
      = (.ret (some (.tuple [Primitives PrimitiveKind.I32, Primitives PrimitiveKind.I32]))
          none, scopeT)
    ∧ Scope.TypeOf specEnv scopeT (.ParenList [.Ident "i32", .Ident "bool"])
      = (.ret (some (.typedesc (.tuple [Primitives PrimitiveKind.I32,
          Primitives PrimitiveKind.Bool]))) none, scopeT) :=
  ⟨rfl,
    ((C15_paren_list specEnv scopeT scopeT (.Ident "i32") [.Ident "n"]
      (some (NewTypeDesc (Primitives PrimitiveKind.I32)))
      [some (Primitives PrimitiveKind.I32)] rfl).2.2.2.2.2 0 (.Ident "n")
      (some (Primitives PrimitiveKind.I32)) rfl rfl (by decide)
      (fun i Ti hi _ => absurd hi (Nat.not_lt_zero i))).trans rfl,
    rfl, rfl⟩

/-! ## Lemmas and claims on the case `InfixOp` -/

/-- The case `InfixOp` of `TypeOf`, unfolded. -/
theorem TypeOf_InfixOp_unfold (E : Env) (s : Scope) (opr : OperatorKind) (x y : Node) :
    Scope.TypeOf E s (.InfixOp opr x y) =
      (Scope.TypeOf E s x).andThen fun x_type s =>
        (Scope.TypeOf E s y).andThen fun y_type s =>
          match x_type with
          | none => Out.panic nilDeref s
          | some xt =>
            if !(Ty.Equals E.types xt y_type) then
              Out.fail (.InfixOp opr x y) ("type mismatch ('" ++ Ty.String E.types xt
                ++ "' and '" ++ fmtType E.types y_type ++ "')") s
            else
              match E.types.SkipAlias (some xt) with
              | none => Out.panic nilDeref s
              | some u => infixResult E opr xt (primitiveKindOf E.types u) s := rfl

/-- The kinds for which `kindIn` holds. -/
theorem kindIn_iff (k : Option PrimitiveKind) (cases : List PrimitiveKind) :
    kindIn k cases = true ↔ ∃ c, k = some c ∧ c ∈ cases := by
  cases k with
  | none => simp [kindIn]
  | some c => simp [kindIn]

/-- C16: for an infix node whose operands check to the types `X` and `Y`: when
`X.Equals(Y)` is false `TypeOf` fails with a type mismatch reported on the node;
otherwise, with `k` the primitive kind underlying `X` after `SkipAlias`, (1) an
arithmetic or bitwise operator yields `X` when `k` is untyped int, untyped
float or i32, (2) a comparison or equality operator yields the untyped bool
primitive when `k` is untyped bool, untyped int or untyped float and the bool
primitive when `k` is bool or i32, (3) the assignment operator yields unit for
every `X`, and (4) every other combination fails with "operator ... is not
defined for the type ..." reported on the operator. -/
theorem C16_infix_operator (E : Env) (s s1 s2 : Scope) (opr : OperatorKind) (x y : Node)
    (X : Ty) (Y : Option Ty) (hx : Scope.TypeOf E s x = (.ret (some X) none, s1))
    (hy : Scope.TypeOf E s1 y = (.ret Y none, s2)) :
    (Ty.Equals E.types X Y = false →
      Scope.TypeOf E s (.InfixOp opr x y)
        = (.ret none (some ⟨.InfixOp opr x y, "type mismatch ('" ++ Ty.String E.types X
            ++ "' and '" ++ fmtType E.types Y ++ "')"⟩), s2))
    ∧ (Ty.Equals E.types X Y = true → ∀ u : Ty, E.types.SkipAlias (some X) = some u →
        (opr ∈ [OperatorKind.OperatorAdd, .OperatorSub, .OperatorMul, .OperatorDiv,
            .OperatorMod, .OperatorBitAnd, .OperatorBitOr, .OperatorBitXor, .OperatorBitShl,
            .OperatorBitShr] →
          primitiveKindOf E.types u ∈ [some PrimitiveKind.UntypedInt,
            some PrimitiveKind.UntypedFloat, some PrimitiveKind.I32] →
          Scope.TypeOf E s (.InfixOp opr x y) = (.ret (some X) none, s2))
        ∧ (opr ∈ [OperatorKind.OperatorEq, .OperatorNe, .OperatorLt, .OperatorLe,
            .OperatorGt, .OperatorGe] →
          primitiveKindOf E.types u ∈ [some PrimitiveKind.UntypedBool,
            some PrimitiveKind.UntypedInt, some PrimitiveKind.UntypedFloat] →
          Scope.TypeOf E s (.InfixOp opr x y)
            = (.ret (some (Primitives PrimitiveKind.UntypedBool)) none, s2))
        ∧ (opr ∈ [OperatorKind.OperatorEq, .OperatorNe, .OperatorLt, .OperatorLe,
            .OperatorGt, .OperatorGe] →
          primitiveKindOf E.types u ∈ [some PrimitiveKind.Bool, some PrimitiveKind.I32] →
          Scope.TypeOf E s (.InfixOp opr x y)
            = (.ret (some (Primitives PrimitiveKind.Bool)) none, s2))
        ∧ (opr = .OperatorAssign →
          Scope.TypeOf E s (.InfixOp opr x y) = (.ret (some Unit.toTy) none, s2))
        ∧ (¬ (opr ∈ [OperatorKind.OperatorAdd, .OperatorSub, .OperatorMul, .OperatorDiv,
              .OperatorMod, .OperatorBitAnd, .OperatorBitOr, .OperatorBitXor,
              .OperatorBitShl, .OperatorBitShr]
            ∧ primitiveKindOf E.types u ∈ [some PrimitiveKind.UntypedInt,
              some PrimitiveKind.UntypedFloat, some PrimitiveKind.I32]) →
          ¬ (opr ∈ [OperatorKind.OperatorEq, .OperatorNe, .OperatorLt, .OperatorLe,
              .OperatorGt, .OperatorGe]
            ∧ primitiveKindOf E.types u ∈ [some PrimitiveKind.UntypedBool,
              some PrimitiveKind.UntypedInt, some PrimitiveKind.UntypedFloat,
              some PrimitiveKind.Bool, some PrimitiveKind.I32]) →
          opr ≠ .OperatorAssign →
          Scope.TypeOf E s (.InfixOp opr x y)
            = (.ret none (some ⟨.Operator opr, "operator '" ++ E.OperatorString opr
                ++ "' is not defined for the type '" ++ Ty.String E.types X ++ "'"⟩), s2))) := by
  constructor
  · intro hne
    rw [TypeOf_InfixOp_unfold, hx]
    simp only [Out.andThen, hy, hne, Bool.not_false, if_true]
    rfl
  · intro hEq u hu
    have hunf : Scope.TypeOf E s (.InfixOp opr x y)
        = infixResult E opr X (primitiveKindOf E.types u) s2 := by
      rw [TypeOf_InfixOp_unfold, hx]
      simp only [Out.andThen, hy, hEq, hu, Bool.not_true, Bool.false_eq_true, if_false]
    rw [hunf]
    generalize primitiveKindOf E.types u = k
    refine ⟨?_, ?_, ?_, ?_, ?_⟩
    · intro hop hk
      simp only [List.mem_cons, List.mem_singleton, List.not_mem_nil, or_false] at hop hk
      rcases hk with hk | hk | hk <;> subst hk <;>
        rcases hop with h | h | h | h | h | h | h | h | h | h <;> subst h <;> rfl
    · intro hop hk
      simp only [List.mem_cons, List.mem_singleton, List.not_mem_nil, or_false] at hop hk
      rcases hk with hk | hk | hk <;> subst hk <;>
        rcases hop with h | h | h | h | h | h <;> subst h <;> rfl
    · intro hop hk
      simp only [List.mem_cons, List.mem_singleton, List.not_mem_nil, or_false] at hop hk
      rcases hk with hk | hk <;> subst hk <;>
        rcases hop with h | h | h | h | h | h <;> subst h <;> rfl
    · intro hop
      subst hop
      cases k <;> rfl
    · intro h1 h2 h3
      have hret : ∀ (r : Option Ty), r = none →
          (match r with
            | some t => Out.ok t s2
            | none =>
              if opr = .OperatorAssign then Out.ok Unit.toTy s2
              else Out.fail (.Operator opr) (notDefinedMsg E opr X) s2)
          = (.ret none (some ⟨.Operator opr, "operator '" ++ E.OperatorString opr
                ++ "' is not defined for the type '" ++ Ty.String E.types X ++ "'"⟩), s2) := by
        intro r hr
        subst hr
        simp only [h3, if_false]
        rfl
      unfold infixResult
      apply hret
      cases k with
      | none => rfl
      | some c =>
        simp only [List.mem_cons, List.mem_singleton, List.not_mem_nil, or_false,
          Option.some.injEq, not_and] at h1 h2
        simp only
        by_cases ha : isArithmetic opr = true
        · have hop : opr = .OperatorAdd ∨ opr = .OperatorSub ∨ opr = .OperatorMul
              ∨ opr = .OperatorDiv ∨ opr = .OperatorMod ∨ opr = .OperatorBitAnd
              ∨ opr = .OperatorBitOr ∨ opr = .OperatorBitXor ∨ opr = .OperatorBitShl
              ∨ opr = .OperatorBitShr := by
            cases opr <;> simp_all [isArithmetic]
          have hk := h1 hop
          have hkin : kindIn (some c) [PrimitiveKind.UntypedInt, PrimitiveKind.UntypedFloat,
              PrimitiveKind.I32] = false := by
            simp only [kindIn, List.contains_cons, List.contains_nil, Bool.or_false,
              Bool.or_eq_false_iff, beq_eq_false_iff_ne, ne_eq]
            exact ⟨fun h => hk (Or.inl h), fun h => hk (Or.inr (Or.inl h)),
              fun h => hk (Or.inr (Or.inr h))⟩
          simp only [ha, if_true, hkin, Bool.false_eq_true, if_false]
        · by_cases hc : isComparison opr = true
          · have hop : opr = .OperatorEq ∨ opr = .OperatorNe ∨ opr = .OperatorLt
                ∨ opr = .OperatorLe ∨ opr = .OperatorGt ∨ opr = .OperatorGe := by
              cases opr <;> simp_all [isComparison]
            have hk := h2 hop
            have hkin1 : kindIn (some c) [PrimitiveKind.UntypedBool, PrimitiveKind.UntypedInt,
                PrimitiveKind.UntypedFloat] = false := by
              simp only [kindIn, List.contains_cons, List.contains_nil, Bool.or_false,
                Bool.or_eq_false_iff, beq_eq_false_iff_ne, ne_eq]
              exact ⟨fun h => hk (Or.inl h), fun h => hk (Or.inr (Or.inl h)),
                fun h => hk (Or.inr (Or.inr (Or.inl h)))⟩
            have hkin2 : kindIn (some c) [PrimitiveKind.Bool, PrimitiveKind.I32] = false := by
              simp only [kindIn, List.contains_cons, List.contains_nil, Bool.or_false,
                Bool.or_eq_false_iff, beq_eq_false_iff_ne, ne_eq]
              exact ⟨fun h => hk (Or.inr (Or.inr (Or.inr (Or.inl h)))),
                fun h => hk (Or.inr (Or.inr (Or.inr (Or.inr h))))⟩
            simp only [ha, hc, if_true, hkin1, hkin2, Bool.false_eq_true, if_false]
          · simp only [ha, hc, Bool.false_eq_true, if_false]

/-- Witness for C16: in the scope `scopeT`, `n + n` has the type `i32` of `n`,
`n == n` the type `bool`, `n = n` the unit type, `b + b` fails on the operator
and `n + b` fails with a type mismatch. -/
theorem C16_infix_operator_witness :
    Scope.TypeOf specEnv scopeT (.Ident "n")
      = (.ret (some (Primitives PrimitiveKind.I32)) none, scopeT)
    ∧ Scope.TypeOf specEnv scopeT (.InfixOp .OperatorAdd (.Ident "n") (.Ident "n"))
      = (.ret (some (Primitives PrimitiveKind.I32)) none, scopeT)
    ∧ Scope.TypeOf specEnv scopeT (.InfixOp .OperatorEq (.Ident "n") (.Ident "n"))
      = (.ret (some (Primitives PrimitiveKind.Bool)) none, scopeT)
    ∧ Scope.TypeOf specEnv scopeT (.InfixOp .OperatorAssign (.Ident "n") (.Ident "n"))
      = (.ret (some Unit.toTy) none, scopeT)
    ∧ Scope.TypeOf specEnv scopeT (.InfixOp .OperatorAdd (.Ident "b") (.Ident "b"))
      = (.ret none (some ⟨.Operator .OperatorAdd,
          "operator '+' is not defined for the type 'bool'"⟩), scopeT)
    ∧ Scope.TypeOf specEnv scopeT (.InfixOp .OperatorAdd (.Ident "n") (.Ident "b"))
      = (.ret none (some ⟨.InfixOp .OperatorAdd (.Ident "n") (.Ident "b"),
          "type mismatch ('i32' and 'bool')"⟩), scopeT) :=
  ⟨rfl,
    ((C16_infix_operator specEnv scopeT scopeT scopeT .OperatorAdd (.Ident "n") (.Ident "n")
      (Primitives PrimitiveKind.I32) (some (Primitives PrimitiveKind.I32)) rfl rfl).2 rfl
      (Primitives PrimitiveKind.I32) rfl).1 (by decide) (by decide),
    rfl, rfl, rfl, rfl⟩

/-! ## Lemmas and claims on `resolveVarDecl` -/

/-- `resolveVarDecl` on a declaration with a type annotation, unfolded. -/
theorem resolveVarDecl_annotated (E : Env) (s : Scope) (name : String) (typeNode : Node)
    (value : Option Node) :
    resolveVarDecl E s (.VarDecl name (some typeNode) value) =
      (match Scope.TypeOf E s typeNode with
      | (.panicked m, s) => (.panicked m, s)
      | (.ret tValue (some err), s) => (.ret tValue (some err), s)
      | (.ret none none, s) => Out.panic "assertion failed" s
      | (.ret (some tValue) none, s) =>
        match Ty.Underlying E.types tValue with
        | some (.typedesc base) => resolveVarDeclValue E (some base) s value
        | _ =>
          Out.fail typeNode ("expression is not a type (" ++ Ty.String E.types tValue
            ++ ")") s) := by
  cases value <;> rfl

/-- `resolveVarDecl` on a declaration without a type annotation, unfolded. -/
theorem resolveVarDecl_not_annotated (E : Env) (s : Scope) (name : String)
    (value : Option Node) :
    resolveVarDecl E s (.VarDecl name none value) = resolveVarDeclValue E none s value := by
  cases value <;> rfl

/-- The second half of `resolveVarDecl` on a declaration without initializer. -/
theorem resolveVarDeclValue_none (E : Env) (t : Option Ty) (s : Scope) :
    resolveVarDeclValue E t s none = (.ret t none, s) := rfl

/-- The second half of `resolveVarDecl` on a declaration with an initializer. -/
theorem resolveVarDeclValue_some (E : Env) (t : Option Ty) (s : Scope) (valueNode : Node) :
    resolveVarDeclValue E t s (some valueNode) =
      (Scope.TypeOf E s valueNode).andThen fun tValue s =>
        match tValue with
        | none => Out.panic nilDeref s
        | some tv =>
          if E.types.IsTypeDesc (Ty.Underlying E.types tv) then
            Out.fail valueNode ("expected value, got type '"
              ++ fmtType E.types (Ty.Underlying E.types tv) ++ "' instead") s
          else
            match t with
            | some t =>
              if !(Ty.Equals E.types t (E.types.SkipUntyped (some tv))) then
                (.ret (some t) (some ⟨valueNode, "type mismatch, expected '"
                  ++ Ty.String E.types t ++ "', got '"
                  ++ fmtType E.types (E.types.SkipUntyped (some tv)) ++ "'"⟩), s)
              else (.ret (some t) none, s)
            | none => (.ret (E.types.SkipUntyped (some tv)) none, s) := rfl

/-- C17: `resolveVarDecl` on a declaration whose annotation (of type `A`) and
initializer (of type `V`), where present, check without error.  With neither it
returns a nil type and no error.  It fails with "expression is not a type"
when the underlying type of `A` is no type descriptor.  With only an
annotation of base `D` it returns `D`.  It fails with "expected value, got
type" when the underlying type of `V` is a type descriptor.  With only an
initializer it returns `SkipUntyped(V)`.  With both it succeeds if and only if
`D.Equals(SkipUntyped(V))`, returning `D`, and fails with "type mismatch"
otherwise. -/
theorem C17_resolveVarDecl (E : Env) (s : Scope) (name : String) :
    resolveVarDecl E s (.VarDecl name none none) = (.ret none none, s)
    ∧ (∀ (typeNode : Node) (value : Option Node) (A : Ty) (s1 : Scope),
        Scope.TypeOf E s typeNode = (.ret (some A) none, s1) →
        (∀ D : Ty, Ty.Underlying E.types A ≠ some (.typedesc D)) →
        resolveVarDecl E s (.VarDecl name (some typeNode) value)
          = (.ret none (some ⟨typeNode, "expression is not a type ("
              ++ Ty.String E.types A ++ ")"⟩), s1))
    ∧ (∀ (typeNode : Node) (A D : Ty) (s1 : Scope),
        Scope.TypeOf E s typeNode = (.ret (some A) none, s1) →
        Ty.Underlying E.types A = some (.typedesc D) →
        resolveVarDecl E s (.VarDecl name (some typeNode) none) = (.ret (some D) none, s1))
    ∧ (∀ (valueNode : Node) (V : Ty) (s1 : Scope),
        Scope.TypeOf E s valueNode = (.ret (some V) none, s1) →
        (E.types.IsTypeDesc (Ty.Underlying E.types V) = true →
          resolveVarDecl E s (.VarDecl name none (some valueNode))
            = (.ret none (some ⟨valueNode, "expected value, got type '"
                ++ fmtType E.types (Ty.Underlying E.types V) ++ "' instead"⟩), s1))
        ∧ (E.types.IsTypeDesc (Ty.Underlying E.types V) = false →
          resolveVarDecl E s (.VarDecl name none (some valueNode))
            = (.ret (E.types.SkipUntyped (some V)) none, s1)))
    ∧ (∀ (typeNode valueNode : Node) (A D V : Ty) (s1 s2 : Scope),
        Scope.TypeOf E s typeNode = (.ret (some A) none, s1) →
        Ty.Underlying E.types A = some (.typedesc D) →
        Scope.TypeOf E s1 valueNode = (.ret (some V) none, s2) →
        (E.types.IsTypeDesc (Ty.Underlying E.types V) = true →
          resolveVarDecl E s (.VarDecl name (some typeNode) (some valueNode))
            = (.ret none (some ⟨valueNode, "expected value, got type '"
                ++ fmtType E.types (Ty.Underlying E.types V) ++ "' instead"⟩), s2))
        ∧ (E.types.IsTypeDesc (Ty.Underlying E.types V) = false →
          (Ty.Equals E.types D (E.types.SkipUntyped (some V)) = true →
            resolveVarDecl E s (.VarDecl name (some typeNode) (some valueNode))
              = (.ret (some D) none, s2))
          ∧ (Ty.Equals E.types D (E.types.SkipUntyped (some V)) = false →
            resolveVarDecl E s (.VarDecl name (some typeNode) (some valueNode))
              = (.ret (some D) (some ⟨valueNode, "type mismatch, expected '"
                  ++ Ty.String E.types D ++ "', got '"
                  ++ fmtType E.types (E.types.SkipUntyped (some V)) ++ "'"⟩), s2))
          ∧ ((∃ (t : Option Ty) (s3 : Scope),
                resolveVarDecl E s (.VarDecl name (some typeNode) (some valueNode))
                  = (.ret t none, s3))
              ↔ Ty.Equals E.types D (E.types.SkipUntyped (some V)) = true))) := by
  refine ⟨rfl, ?_, ?_, ?_, ?_⟩
  · intro typeNode value A s1 hA hnot
    rw [resolveVarDecl_annotated, hA]
    simp only
    rfl
  · intro typeNode A D s1 hA hD
    rw [resolveVarDecl_annotated, hA]
    simp only [hD, resolveVarDeclValue_none]
  · intro valueNode V s1 hV
    rw [resolveVarDecl_not_annotated, resolveVarDeclValue_some, hV]
    refine ⟨?_, ?_⟩
    · intro htd
      simp only [Out.andThen, htd, if_true]
      rfl
    · intro htd
      simp only [Out.andThen, htd, Bool.false_eq_true, if_false]
  · intro typeNode valueNode A D V s1 s2 hA hD hV
    have hunf : resolveVarDecl E s (.VarDecl name (some typeNode) (some valueNode))
        = resolveVarDeclValue E (some D) s1 (some valueNode) := by
      rw [resolveVarDecl_annotated, hA]
      simp only [hD]
    refine ⟨?_, ?_⟩
    · intro htd
      rw [hunf, resolveVarDeclValue_some, hV]
      simp only [Out.andThen, htd, if_true]
      rfl
    · intro htd
      have hEqT : Ty.Equals E.types D (E.types.SkipUntyped (some V)) = true →
          resolveVarDecl E s (.VarDecl name (some typeNode) (some valueNode))
            = (.ret (some D) none, s2) := by
        intro hEq
        rw [hunf, resolveVarDeclValue_some, hV]
        simp only [Out.andThen, htd, Bool.false_eq_true, if_false, hEq, Bool.not_true]
      have hEqF : Ty.Equals E.types D (E.types.SkipUntyped (some V)) = false →
          resolveVarDecl E s (.VarDecl name (some typeNode) (some valueNode))
            = (.ret (some D) (some ⟨valueNode, "type mismatch, expected '"
                  ++ Ty.String E.types D ++ "', got '"
                  ++ fmtType E.types (E.types.SkipUntyped (some V)) ++ "'"⟩), s2) := by
        intro hEq
        rw [hunf, resolveVarDeclValue_some, hV]
        simp only [Out.andThen, htd, Bool.false_eq_true, if_false, hEq, Bool.not_false,
          if_true]
      refine ⟨hEqT, hEqF, ⟨?_, fun h => ⟨_, _, hEqT h⟩⟩⟩
      rintro ⟨t, s3, hsucc⟩
      by_contra hcon
      have hf : Ty.Equals E.types D (E.types.SkipUntyped (some V)) = false := by
        simpa using hcon
      rw [hEqF hf] at hsucc
      simp at hsucc

/-- Witness for C17: in the scope `scopeT` the declaration `x: i32 = 1` resolves
to `i32`, `x := 1` to the concretized type `i32` of the literal, `x: bool = 1`
fails with a type mismatch and `x: n` fails since `n` is no type. -/
theorem C17_resolveVarDecl_witness :
    resolveVarDecl specEnv scopeT
        (.VarDecl "x" (some (.Ident "i32")) (some (.Literal .IntLiteral "1")))
      = (.ret (some (Primitives PrimitiveKind.I32)) none, scopeT)
    ∧ resolveVarDecl specEnv scopeT (.VarDecl "x" none (some (.Literal .IntLiteral "1")))
      = (.ret (some (Primitives PrimitiveKind.I32)) none, scopeT)
    ∧ resolveVarDecl specEnv scopeT
        (.VarDecl "x" (some (.Ident "bool")) (some (.Literal .IntLiteral "1")))
      = (.ret (some (Primitives PrimitiveKind.Bool)) (some ⟨.Literal .IntLiteral "1",
          "type mismatch, expected 'bool', got 'i32'"⟩), scopeT)
    ∧ resolveVarDecl specEnv scopeT (.VarDecl "x" (some (.Ident "n")) none)
      = (.ret none (some ⟨.Ident "n", "expression is not a type (i32)"⟩), scopeT) :=
  ⟨((((C17_resolveVarDecl specEnv scopeT "x").2.2.2.2 (.Ident "i32")
      (.Literal .IntLiteral "1") (NewTypeDesc (Primitives PrimitiveKind.I32))
      (Primitives PrimitiveKind.I32) (Primitives PrimitiveKind.UntypedInt) scopeT scopeT
      rfl rfl rfl).2 rfl).1 rfl),
    rfl, rfl, rfl⟩

/-! ## Lemmas and claims on `resolveFuncDecl` -/

/-- The loop over the parameters never returns a nil error; when it runs to
its end the body of the symbol is the one it started with and no parameter has
a default value. -/
theorem resolveFuncDecl_params_cases (E : Env) :
    ∀ (params : List Node) (sym : FuncSym) (tParams : List (Option Ty)),
      (∃ (r : DeclRes) (sym2 : FuncSym),
          resolveFuncDecl.params E sym tParams params = .stop r sym2 ∧ r ≠ .ret none)
      ∨ (∃ (ts : List (Option Ty)) (sym2 : FuncSym),
          resolveFuncDecl.params E sym tParams params = .done ts sym2
            ∧ sym2.body = sym.body
            ∧ ∀ (n : String) (t v : Option Node), Node.BindingWithValue n t v ∉ params) := by
  intro params
  induction params with
  | nil =>
    intro sym tParams
    right
    exact ⟨tParams, sym, rfl, rfl, fun n t v h => by simp at h⟩
  | cons param rest ih =>
    intro sym tParams
    cases param <;>
      first
      | (left
         exact ⟨_, _, rfl, by simp⟩)
      | skip
    case Binding name type =>
      cases type with
      | none =>
        left
        exact ⟨_, _, rfl, by simp⟩
      | some typeNode =>
        rw [resolveFuncDecl.params]
        generalize Scope.TypeOf E sym.owner typeNode = o
        rcases o with ⟨⟨t, _ | err⟩ | m, owner⟩
        · simp only
          rcases ih { sym.setOwner owner with
              scope := ((sym.setOwner owner).scope.Define
                ⟨name, E.types.SkipTypeDesc t⟩).2 }
              (tParams ++ [E.types.SkipTypeDesc t]) with
            ⟨r, sym2, h1, h2⟩ | ⟨ts, sym2, h1, h2, h3⟩
          · left
            exact ⟨r, sym2, h1, h2⟩
          · right
            refine ⟨ts, sym2, h1, h2, ?_⟩
            intro n t2 v hmem
            simp only [List.mem_cons] at hmem
            rcases hmem with h | h
            · cases h
            · exact h3 n t2 v h
        · left
          exact ⟨_, _, rfl, by simp⟩
        · left
          exact ⟨_, _, rfl, by simp⟩

/-- The result annotation never returns a nil error; when it resolves the
body of the symbol is the one it started with. -/
theorem resolveFuncDecl_result_cases (E : Env) (sym : FuncSym) :
    (∃ (r : DeclRes) (sym2 : FuncSym),
        resolveFuncDecl.result E sym = .stop r sym2 ∧ r ≠ .ret none)
    ∨ (∃ (tResult : Tuple) (sym2 : FuncSym),
        resolveFuncDecl.result E sym = .done tResult sym2 ∧ sym2.body = sym.body) := by
  unfold resolveFuncDecl.result
  cases sym.result with
  | none =>
    right
    exact ⟨_, _, rfl, rfl⟩
  | some resultNode =>
    simp only
    generalize Scope.TypeOf E sym.owner resultNode = o
    rcases o with ⟨⟨t, _ | err⟩ | m, owner⟩
    · right
      exact ⟨_, _, rfl, rfl⟩
    · left
      exact ⟨_, _, rfl, by simp⟩
    · left
      exact ⟨_, _, rfl, by simp⟩

/-- A function declaration without a body, or with a parameter that has a
default value, is never accepted: `resolveFuncDecl` does not return a nil
error. -/
theorem resolveFuncDecl_rejects (E : Env) (sym : FuncSym)
    (h : sym.body = none
      ∨ ∃ (n : String) (t v : Option Node), Node.BindingWithValue n t v ∈ sym.params) :
    (resolveFuncDecl E sym).1 ≠ .ret none := by
  unfold resolveFuncDecl
  rcases resolveFuncDecl_params_cases E sym.params sym [] with
    ⟨r, sym2, h1, h2⟩ | ⟨ts, sym2, h1, h2, h3⟩
  · rw [h1]
    exact h2
  · rw [h1]
    simp only
    rcases h with hbody | ⟨n, t, v, hmem⟩
    · rcases resolveFuncDecl_result_cases E sym2 with
        ⟨r, sym3, h4, h5⟩ | ⟨tResult, sym3, h4, h5⟩
      · rw [h4]
        exact h5
      · rw [h4]
        simp only [resolveFuncDecl.body, h5, h2, hbody]
        simp
    · exact absurd hmem (h3 n t v)

/-- The part `// Body.` of `resolveFuncDecl` when the body checks to a type
that the result tuple does not equal: the error is reported on the last node
of the body, and the index `len - 1` panics when the body is empty. -/
theorem resolveFuncDecl_body_mismatch (E : Env) (sym : FuncSym) (tResult : Tuple)
    (nodes : List Node) (tBody : Option Ty) (scope : Scope)
    (hbody : sym.body = some nodes)
    (hcheck : Scope.TypeOf E sym.scope (.CurlyList nodes) = (.ret tBody none, scope))
    (hne : Tuple.Equals E.types tResult tBody = false) :
    (∀ last : Node, nodes.getLast? = some last →
      (resolveFuncDecl.body E sym tResult).1
        = .ret (some ⟨last, "expected expression of type '"
            ++ Ty.String E.types tResult.toTy ++ "' for function result, got '"
            ++ fmtType E.types tBody ++ "' instead"⟩))
    ∧ (nodes = [] →
      (resolveFuncDecl.body E sym tResult).1 = .panicked "index out of range [-1]") := by
  refine ⟨?_, ?_⟩
  · intro last hlast
    simp only [resolveFuncDecl.body, hbody, hcheck, hne, Bool.not_false, if_true, hlast]
  · intro hnil
    subst hnil
    simp only [resolveFuncDecl.body, hbody, hcheck, hne, Bool.not_false, if_true,
      List.getLast?_nil]

/-- C18: the statement "a function declaration whose body, possibly an empty
block, checks to a type that the declared result tuple does not equal returns
an error located at the last node of the body" fails on the code: for
`f := () i32 {}` the annotation `i32` resolves, the empty body checks to the
unit type, which the result tuple `(i32)` does not equal, and
`resolveFuncDecl` panics on the index `len(Nodes)-1` of the empty body.  For
the body `{ b }` of type `bool` the error is reported on `b`, and
`f := (a: i32) { a = a }` is accepted. -/
theorem C18_resolveFuncDecl_empty_body_panics :
    Scope.TypeOf specEnv funcEmptyBody.owner (.Ident "i32")
      = (.ret (some (NewTypeDesc (Primitives PrimitiveKind.I32))) none, scopeT)
    ∧ Scope.TypeOf specEnv funcEmptyBody.scope (.CurlyList [])
      = (.ret (some Unit.toTy) none, funcEmptyBody.scope)
    ∧ Tuple.Equals specTypes ⟨[Primitives PrimitiveKind.I32]⟩ (some Unit.toTy) = false
    ∧ (resolveFuncDecl specEnv funcEmptyBody).1 = .panicked "index out of range [-1]"
    ∧ (resolveFuncDecl specEnv funcBool).1
      = .ret (some ⟨.Ident "b",
          "expected expression of type '(i32)' for function result, got 'bool' instead"⟩)
    ∧ (resolveFuncDecl specEnv funcAssign).1 = .ret none :=
  ⟨rfl, rfl, rfl, rfl, rfl, rfl⟩

/-! ## Lemmas and claims on `checker/checker.go` -/

/-- The entry that an assignment to `module.Types` stores. -/
theorem Checker.store_same (check : Checker) (expr : NodeId) (tv : TypedValue) :
    (check.store expr tv).module.Types expr = some tv := by
  simp [Checker.store]

/-- An assignment to `module.Types` leaves the other entries as they are. -/
theorem Checker.store_other (check : Checker) (expr n : NodeId) (tv : TypedValue)
    (h : n ≠ expr) : (check.store expr tv).module.Types n = check.module.Types n := by
  simp [Checker.store, h]

/-- `typeOf` on a node that has an entry in `module.Types` returns the type of
the entry and leaves the checker as it is, whatever the internal methods do. -/
theorem Checker.typeOf_hit (I : Internals) (check : Checker) (expr : NodeId)
    (tv : TypedValue) (h : check.module.Types expr = some tv) :
    Checker.typeOf I check expr = some (tv.type, check) := by
  simp [Checker.typeOf, Checker.valueOf, h]

/-- C19: `Checker.typeOf` is memoized.  For a node that has an entry in
`module.Types`, `typeOf` returns the type of the entry and the checker is left
unchanged, whatever the methods `typeOfInternal` and `valueOfInternal` do: they
are not consulted.  Hence, when a first `typeOf(expr)` returns a non-nil type
`t`, a second `typeOf(expr)` on the checker it leaves returns `t` again and
changes nothing, again whatever the internal methods do. -/
theorem C19_typeOf_memoized (I : Internals) (check : Checker) (expr : NodeId) :
    (∀ tv : TypedValue, check.module.Types expr = some tv →
      ∀ I2 : Internals, Checker.typeOf I2 check expr = some (tv.type, check))
    ∧ (∀ (t : Ty) (check1 : Checker), Checker.typeOf I check expr = some (some t, check1) →
        ∀ I2 : Internals, Checker.typeOf I2 check1 expr = some (some t, check1)) := by
  refine ⟨fun tv h I2 => Checker.typeOf_hit I2 check expr tv h, ?_⟩
  intro t check1 h I2
  have key : ∃ tv : TypedValue, check1.module.Types expr = some tv ∧ tv.type = some t := by
    unfold Checker.typeOf Checker.valueOf at h
    cases hE : check.module.Types expr with
    | some tv =>
      simp only [hE, Option.some.injEq, Prod.mk.injEq] at h
      exact ⟨tv, by rw [← h.2]; exact hE, h.1⟩
    | none =>
      simp only [hE] at h
      rcases hv : I.valueOfInternal check expr with _ | ⟨_ | value, c1⟩
      · simp [hv] at h
      · simp only [hv] at h
        rcases ht : I.typeOfInternal c1 expr with _ | ⟨_ | t1, c2⟩
        · simp [ht] at h
        · simp [ht] at h
        · simp only [ht, Checker.setType] at h
          cases hp : c2.module.Types expr with
          | none =>
            simp only [hp, Option.some.injEq, Prod.mk.injEq] at h
            exact ⟨⟨some t1, none⟩, by rw [← h.2]; exact Checker.store_same _ _ _,
              congrArg some h.1⟩
          | some prev =>
            simp only [hp, Option.some.injEq, Prod.mk.injEq] at h
            exact ⟨⟨some t1, prev.value⟩, by rw [← h.2]; exact Checker.store_same _ _ _,
              congrArg some h.1⟩
      · simp only [hv, Checker.setValue] at h
        cases hty : value.type with
        | none => simp [hty] at h
        | some ty =>
          simp only [hty, Option.some.injEq, Prod.mk.injEq] at h
          exact ⟨value, by rw [← h.2]; exact Checker.store_same _ _ _, by rw [← h.1, hty]⟩
  obtain ⟨tv, h1, h2⟩ := key
  rw [Checker.typeOf_hit I2 check1 expr tv h1, h2]

/-- Witness for C19: with internal methods that leave a trace at each call, a
first `typeOf` of the node 0 on the empty checker runs both of them and returns
`bool`; a second `typeOf` returns `bool` and leaves the checker unchanged. -/
theorem C19_typeOf_memoized_witness :
    ∃ check1 : Checker,
      Checker.typeOf tracingInternals checkerEmpty 0
        = some (some (Primitives PrimitiveKind.Bool), check1)
      ∧ check1.isErrorHandled = true ∧ check1.errors.length = 1
      ∧ Checker.typeOf tracingInternals check1 0
        = some (some (Primitives PrimitiveKind.Bool), check1) :=
  ⟨_, rfl, rfl, rfl,
    (C19_typeOf_memoized tracingInternals checkerEmpty 0).2 _ _ rfl tracingInternals⟩

/-- C20, as stated, fails on the code: in the checker `checkerV` the entry of
the node 0 holds the value `5`; `setValue` with a typed value that carries no
value succeeds and leaves the entry without value. -/
theorem C20_setValue_replaces_value :
    (checkerV.module.Types 0).bind TypedValue.value = some ⟨"5"⟩
    ∧ (checkerV.setValue 0 (some ⟨some (Primitives PrimitiveKind.I32), none⟩)).isSome = true
    ∧ ((checkerV.setValue 0 (some ⟨some (Primitives PrimitiveKind.I32), none⟩)).bind
        fun check => (check.module.Types 0).bind TypedValue.value) = none :=
  ⟨rfl, rfl, rfl⟩

/-- C20, amended: for a node whose entry in `module.Types` is `tv0`,
`setType(node, t)` stores the type `t` together with the value of `tv0` and
leaves every other entry as it is; `setValue(node, tv)` stores `tv` itself,
with the value that `tv` carries or without one, and leaves every other entry
as it is. -/
theorem C20_setType_merges_setValue_stores (check : Checker) (expr : NodeId)
    (tv0 : TypedValue) (h : check.module.Types expr = some tv0) :
    (∀ t : Ty, ∃ check2 : Checker, check.setType expr (some t) = some check2
      ∧ check2.module.Types expr = some ⟨some t, tv0.value⟩
      ∧ ∀ n : NodeId, n ≠ expr → check2.module.Types n = check.module.Types n)
    ∧ (∀ (tv : TypedValue) (ty : Ty), tv.type = some ty →
        ∃ check2 : Checker, check.setValue expr (some tv) = some check2
          ∧ check2.module.Types expr = some tv
          ∧ ∀ n : NodeId, n ≠ expr → check2.module.Types n = check.module.Types n) := by
  refine ⟨?_, ?_⟩
  · intro t
    refine ⟨check.store expr ⟨some t, tv0.value⟩, ?_, Checker.store_same _ _ _,
      fun n hn => Checker.store_other _ _ _ _ hn⟩
    simp [Checker.setType, h]
  · intro tv ty hty
    refine ⟨check.store expr tv, ?_, Checker.store_same _ _ _,
      fun n hn => Checker.store_other _ _ _ _ hn⟩
    simp [Checker.setValue, hty]

/-- Witness for C20: in the checker `checkerV`, `setType` of the node 0 to
`bool` keeps the value `5` of the entry. -/
theorem C20_setType_merges_setValue_stores_witness :
    checkerV.module.Types 0 = some ⟨some (Primitives PrimitiveKind.I32), some ⟨"5"⟩⟩
    ∧ ∃ check2 : Checker,
        checkerV.setType 0 (some (Primitives PrimitiveKind.Bool)) = some check2
        ∧ check2.module.Types 0 = some ⟨some (Primitives PrimitiveKind.Bool), some ⟨"5"⟩⟩
        ∧ ∀ n : NodeId, n ≠ 0 → check2.module.Types n = checkerV.module.Types n :=
  ⟨rfl, (C20_setType_merges_setValue_stores checkerV 0
    ⟨some (Primitives PrimitiveKind.I32), some ⟨"5"⟩⟩ rfl).1 (Primitives PrimitiveKind.Bool)⟩

/-! ## Claims on `newDef` and `newUse` -/

/-- The tables of `checkerEmpty` are disjoint. -/
theorem checkerEmpty_disjoint : checkerEmpty.disjoint := by
  intro n h
  exact Bool.noConfusion h.1

/-- `newUse` keeps `Defs` and `Uses` disjoint: it fails its assertion for an
identifier that is a key of `Defs`. -/
theorem newUse_preserves_disjoint (check check2 : Checker) (ident : Option NodeId)
    (sym : Option Symbol) (hd : check.disjoint) (h : check.newUse ident sym = some check2) :
    check2.disjoint := by
  cases ident with
  | none => cases sym <;> simp [Checker.newUse] at h
  | some i =>
    cases sym with
    | none => simp [Checker.newUse] at h
    | some s =>
      simp only [Checker.newUse] at h
      cases hdef : check.module.Defs i with
      | some d => rw [hdef] at h; cases h
      | none =>
        rw [hdef] at h
        injection h with h
        subst h
        intro n hn
        by_cases hni : n = i
        · subst hni
          rw [show ({ check with module := { check.module with
              Uses := fun m => if m = n then some s else check.module.Uses m } } : Checker).module.Defs n
              = check.module.Defs n from rfl, hdef] at hn
          exact Bool.noConfusion hn.1
        · apply hd n
          refine ⟨hn.1, ?_⟩
          have h2 := hn.2
          simp only [hni, if_false] at h2
          exact h2

/-- `newDef` completes for every non-nil identifier and symbol, and its result
has disjoint tables only if the identifier is not a key of `Uses`: `newDef`
does not look at `Uses`. -/
theorem newDef_disjoint_iff (P : Types) (check : Checker) (i : NodeId) (kind : SymbolKind)
    (s : Symbol) (hd : check.disjoint) :
    ∃ check2, check.newDef P (some i) kind (some s) = some check2
      ∧ (check2.disjoint ↔ check.module.Uses i = none) := by
  have key : ∀ check2 : Checker,
      check2.module.Defs = (fun n => if n = i then some s else check.module.Defs n) →
      check2.module.Uses = check.module.Uses →
      (check2.disjoint ↔ check.module.Uses i = none) := by
    intro check2 hD hU
    constructor
    · intro h2
      have := h2 i
      rw [hD, hU] at this
      simp only [if_true, Option.isSome_some, true_and] at this
      cases hu : check.module.Uses i with
      | none => rfl
      | some u => rw [hu] at this; exact absurd rfl this
    · intro hu n hn
      rw [hD, hU] at hn
      by_cases hni : n = i
      · subst hni
        rw [hu] at hn
        exact Bool.noConfusion hn.2
      · simp only [hni, if_false] at hn
        exact hd n hn
  cases kind <;> exact ⟨_, rfl, key _ rfl rfl⟩

/-- C21: `Defs` and `Uses` do not stay disjoint. Starting from empty tables, the
calls `newUse(x, n)` and then `newDef(x, n)` for the same identifier node `x`
both complete without an assertion failure, and afterwards `x` is a key of
both `module.Defs` and `module.Uses`; in the other order the second call fails
the assertion of `newUse`. -/
theorem C21_newUse_then_newDef_in_both :
    checkerEmpty.disjoint
    ∧ (∃ check : Checker,
        Checker.run specTypes checkerEmpty
            [.newUse (some 0) (some symN), .newDef (some 0) .Var (some symN)] = some check
        ∧ (check.module.Defs 0).isSome = true ∧ (check.module.Uses 0).isSome = true
        ∧ ¬ check.disjoint)
    ∧ Checker.run specTypes checkerEmpty
        [.newDef (some 0) .Var (some symN), .newUse (some 0) (some symN)] = none := by
  refine ⟨?_, ⟨_, rfl, rfl, rfl, ?_⟩, rfl⟩
  · intro n h
    exact Bool.noConfusion h.1
  · intro h
    exact h 0 ⟨rfl, rfl⟩

/-! ## Claims on the variadic flag -/

/-- C22: `Func.CheckArgs` does not consult the variadic flag. Two function types
with the same parameters and the same result give the same fault index and the
same error for every argument tuple, whatever their variadic flags are; and a
variadic function called with more arguments than it has parameters is rejected
with the number of parameters as fault index and the message "too many
arguments". -/
theorem C22_CheckArgs_ignores_variadic (P : Types) (f g : Func) (args : Tuple)
    (hp : f.params = g.params) (hr : f.result = g.result) :
    Func.CheckArgs P f args = Func.CheckArgs P g args
    ∧ (f.variadic = true → f.params.Len < args.Len →
        Func.CheckArgs P f args =
          ((f.params.Len : Int),
            some ("too many arguments (expected " ++ toString f.params.Len ++ ", got "
              ++ toString args.Len ++ ")"))) := by
  constructor
  · cases f with
    | mk fp fr fv =>
      cases g with
      | mk gp gr gv =>
        simp only at hp hr
        subst hp
        subst hr
        rfl
  · intro _ hlt
    rw [CheckArgs_arity P f args (Nat.ne_of_lt hlt)]
    simp only [hlt, if_true, Nat.min_eq_left (Nat.le_of_lt hlt)]

/-- Witness for C22: `func(i32, i32) i32` with and without the variadic flag,
called with three arguments. -/
theorem C22_CheckArgs_ignores_variadic_witness :
    addI32Variadic.params = addI32.params ∧ addI32Variadic.result = addI32.result
    ∧ addI32Variadic.variadic = true ∧ addI32.variadic = false
    ∧ Func.CheckArgs specTypes addI32Variadic
        ⟨[Primitives PrimitiveKind.I32, Primitives PrimitiveKind.I32,
          Primitives PrimitiveKind.I32]⟩
      = Func.CheckArgs specTypes addI32
        ⟨[Primitives PrimitiveKind.I32, Primitives PrimitiveKind.I32,
          Primitives PrimitiveKind.I32]⟩
    ∧ Func.CheckArgs specTypes addI32Variadic
        ⟨[Primitives PrimitiveKind.I32, Primitives PrimitiveKind.I32,
          Primitives PrimitiveKind.I32]⟩
      = (2, some "too many arguments (expected 2, got 3)") :=
  ⟨rfl, rfl, rfl, rfl,
    (C22_CheckArgs_ignores_variadic specTypes addI32Variadic addI32
      ⟨[Primitives PrimitiveKind.I32, Primitives PrimitiveKind.I32,
        Primitives PrimitiveKind.I32]⟩ rfl rfl).1,
    ((C22_CheckArgs_ignores_variadic specTypes addI32Variadic addI32
      ⟨[Primitives PrimitiveKind.I32, Primitives PrimitiveKind.I32,
        Primitives PrimitiveKind.I32]⟩ rfl rfl).2 rfl (by decide)).trans (by decide)⟩

/-! ## Claims on `PrimitiveKind.String` -/

/-- For a kind from 9 on, `PrimitiveKind.String` formats `int64(i)`. -/
theorem PrimitiveKind_String_fallback (k : PrimitiveKind) (h9 : 9 ≤ k) :
    PrimitiveKind.String k = some ("PrimitiveKind(" ++ toString (int64 k) ++ ")") := by
  unfold PrimitiveKind.String
  rw [if_pos]
  exact h9

/-- C23: `PrimitiveKind.String` returns a string for every kind; for the nine
kinds 0..8 it returns, in order, "UnknownPrimitive", "untyped bool", "untyped
int", "untyped float", "untyped string", "bool", "i32", "any", "typedesc";
these nine names are pairwise distinct; each of them is a slice of the name
table within its bounds; and for every kind `k` from 9 on (below 2^63, the
range in which `int64(k)` is `k`) it returns "PrimitiveKind(k)" with `k` in
decimal. -/
theorem C23_PrimitiveKind_String_total_faithful :
    (∀ k : PrimitiveKind, (PrimitiveKind.String k).isSome = true)
    ∧ (List.range 9).map PrimitiveKind.String =
        [some "UnknownPrimitive", some "untyped bool", some "untyped int",
          some "untyped float", some "untyped string", some "bool", some "i32", some "any",
          some "typedesc"]
    ∧ (PrimitiveKind.String PrimitiveKind.UnknownPrimitive = some "UnknownPrimitive"
      ∧ PrimitiveKind.String PrimitiveKind.UntypedBool = some "untyped bool"
      ∧ PrimitiveKind.String PrimitiveKind.UntypedInt = some "untyped int"
      ∧ PrimitiveKind.String PrimitiveKind.UntypedFloat = some "untyped float"
      ∧ PrimitiveKind.String PrimitiveKind.UntypedString = some "untyped string"
      ∧ PrimitiveKind.String PrimitiveKind.Bool = some "bool"
      ∧ PrimitiveKind.String PrimitiveKind.I32 = some "i32"
      ∧ PrimitiveKind.String PrimitiveKind.Any = some "any"
      ∧ PrimitiveKind.String PrimitiveKind.AnyTypeDesc = some "typedesc")
    ∧ (∀ i j : PrimitiveKind, i < 9 → j < 9 →
        PrimitiveKind.String i = PrimitiveKind.String j → i = j)
    ∧ (∀ i : PrimitiveKind, i < 9 → ∃ lo hi : Nat,
        _PrimitiveKind_index[i]? = some lo ∧ _PrimitiveKind_index[i + 1]? = some hi
        ∧ lo ≤ hi ∧ hi ≤ _PrimitiveKind_name.length
        ∧ PrimitiveKind.String i = sliceString _PrimitiveKind_name lo hi)
    ∧ (∀ k : PrimitiveKind, 9 ≤ k → k < 2 ^ 63 →
        PrimitiveKind.String k = some ("PrimitiveKind(" ++ toString k ++ ")"))
    ∧ PrimitiveKind.String 9 = some "PrimitiveKind(9)"
    ∧ PrimitiveKind.String 255 = some "PrimitiveKind(255)" := by
  have hfb : ∀ k : PrimitiveKind, 9 ≤ k → k < 2 ^ 63 →
      PrimitiveKind.String k = some ("PrimitiveKind(" ++ toString k ++ ")") := by
    intro k h9 h63
    rw [PrimitiveKind_String_fallback k h9]
    have hk : int64 k = ((k : Nat) : Int) := by
      unfold int64
      have hm : k % 2 ^ 64 = k :=
        Nat.mod_eq_of_lt (Nat.lt_of_lt_of_le h63 (by norm_num))
      rw [hm, if_pos h63]
    rw [hk]
    rfl
  refine ⟨?_, by decide, by decide, ?_, ?_, hfb, by decide, by decide⟩
  · intro k
    by_cases h9 : 9 ≤ k
    · rw [PrimitiveKind_String_fallback k h9]
      rfl
    · have hk : k < 9 := Nat.lt_of_not_le h9
      interval_cases k <;> decide
  · intro i j hi hj
    interval_cases i <;> interval_cases j <;> decide
  · intro i hi
    interval_cases i <;> exact ⟨_, _, rfl, rfl, by decide, by decide, by decide⟩

end Jet
